import Mathlib

/-!
# solarSystem: a verification development

Shallow embedding of `src/main.cpp` (the N-body physics step, the force
function, the batch renderer's geometry builders and the UI mutations of the
body list), followed by theorems about it.

## Numeric model

Every C `float` or `double` is a value of `FVal α`: either a finite number of
an ordered field `α` or one of the IEEE special values `+inf`, `-inf`, `NaN`.
Every arithmetic operation takes the format of its result (`binary32` for
`float`, `binary64` for `double`) and rounds the exact result into it with
`FVal.round`: a result at or beyond the overflow threshold of the format
becomes an infinity, a result at or below half its smallest subnormal becomes
zero, and any other result is kept exact (the rounding of the significand and
the sign of zero are not modelled; a zero divisor is `+0`).  The C library
functions `sqrt`, `atan2`, `cos`, `sin` on finite arguments are a parameter
`Libm α`; `Libm.Exact` states the identities of the mathematical functions and
`realLibm` is the instance over the real numbers.
-/

namespace SolarSystem

/-! ## Float values -/

/-- A float value: a finite number, or an IEEE special value. -/
inductive FVal (α : Type) where
  | fin (x : α)
  | pinf
  | ninf
  | nan

/-- A binary floating-point format: a finite result `x` with
`overflow ≤ |x|` rounds to an infinity and one with `|x| ≤ underflow` rounds to
zero. -/
structure Format (α : Type) where
  overflow : α
  underflow : α

/-- The format of `float`: results from `2^128 - 2^103` on overflow, results up
to `2^-150` (half the smallest subnormal) round to zero. -/
def binary32 {α : Type} [LinearOrderedField α] : Format α :=
  ⟨2 ^ 128 - 2 ^ 103, 1 / 2 ^ 150⟩

/-- The format of `double`: results from `2^1024 - 2^970` on overflow, results
up to `2^-1075` round to zero. -/
def binary64 {α : Type} [LinearOrderedField α] : Format α :=
  ⟨2 ^ 1024 - 2 ^ 970, 1 / 2 ^ 1075⟩

namespace FVal

variable {α : Type} [LinearOrderedField α]

/-- Unary minus of a float. -/
def neg : FVal α → FVal α
  | fin x => fin (-x)
  | pinf => ninf
  | ninf => pinf
  | nan => nan

/-- Addition of the extended reals, before rounding. -/
def addExact : FVal α → FVal α → FVal α
  | fin a, fin b => fin (a + b)
  | fin _, pinf => pinf
  | fin _, ninf => ninf
  | pinf, fin _ => pinf
  | pinf, pinf => pinf
  | ninf, fin _ => ninf
  | ninf, ninf => ninf
  | _, _ => nan

/-- Infinity times a finite factor: the sign follows the factor, `inf * 0` is NaN. -/
def infMul (positive : Bool) (c : α) : FVal α :=
  if c = 0 then nan else if (0 < c) = positive then pinf else ninf

/-- Multiplication of the extended reals, before rounding. -/
def mulExact : FVal α → FVal α → FVal α
  | fin a, fin b => fin (a * b)
  | fin c, pinf => infMul true c
  | fin c, ninf => infMul false c
  | pinf, fin c => infMul true c
  | ninf, fin c => infMul false c
  | pinf, pinf => pinf
  | ninf, ninf => pinf
  | pinf, ninf => ninf
  | ninf, pinf => ninf
  | _, _ => nan

/-- Division of the extended reals, before rounding; a zero divisor is `+0`. -/
def divExact : FVal α → FVal α → FVal α
  | fin a, fin b =>
    if b = 0 then (if a = 0 then nan else if 0 < a then pinf else ninf) else fin (a / b)
  | fin _, pinf => fin 0
  | fin _, ninf => fin 0
  | pinf, fin c => if 0 ≤ c then pinf else ninf
  | ninf, fin c => if 0 ≤ c then ninf else pinf
  | _, _ => nan

instance : Neg (FVal α) := ⟨neg⟩

/-- The exact result `x` is representable as such in the format `f`: it neither
overflows nor underflows. -/
def Fits (f : Format α) (x : α) : Prop :=
  -f.overflow < x ∧ x < f.overflow ∧ (x = 0 ∨ x < -f.underflow ∨ f.underflow < x)

/-- Rounding of an exact result into a format: overflow to an infinity,
underflow to zero, otherwise the value itself. -/
def round (f : Format α) : FVal α → FVal α
  | fin x =>
    if f.overflow ≤ x then pinf
    else if x ≤ -f.overflow then ninf
    else if -f.underflow ≤ x ∧ x ≤ f.underflow then fin 0
    else fin x
  | v => v

/-- Addition with a result of format `f`. -/
def add (f : Format α) (a b : FVal α) : FVal α := round f (addExact a b)

/-- Subtraction with a result of format `f`. -/
def sub (f : Format α) (a b : FVal α) : FVal α := round f (addExact a (neg b))

/-- Multiplication with a result of format `f`. -/
def mul (f : Format α) (a b : FVal α) : FVal α := round f (mulExact a b)

/-- Division with a result of format `f`. -/
def div (f : Format α) (a b : FVal α) : FVal α := round f (divExact a b)

/-- Library function `std::pow(x, 2)` with a result of format `f`. -/
def pow2 (f : Format α) (x : FVal α) : FVal α := mul f x x

/-- Float comparison `a < b`; false whenever a NaN is involved. -/
def lt : FVal α → FVal α → Bool
  | fin a, fin b => decide (a < b)
  | fin _, pinf => true
  | ninf, fin _ => true
  | ninf, pinf => true
  | _, _ => false

/-- The value is a finite number (neither NaN nor infinite). -/
def isFinite : FVal α → Bool
  | fin _ => true
  | _ => false

end FVal

/-- The C math library on finite arguments; `pi` is the constant its `atan2`
returns multiples of when an argument is infinite. -/
structure Libm (α : Type) where
  sqrt : α → α
  atan2 : α → α → α
  cos : α → α
  sin : α → α
  pi : α

namespace Libm

variable {α : Type} [LinearOrderedField α]

/-- Library function `std::sqrt`, before rounding. -/
def sqrtExact (M : Libm α) : FVal α → FVal α
  | .fin x => if x < 0 then .nan else .fin (M.sqrt x)
  | .pinf => .pinf
  | _ => .nan

/-- Library function `std::sqrt` with a result of format `f`. -/
def fsqrt (M : Libm α) (f : Format α) (v : FVal α) : FVal α := (M.sqrtExact v).round f

/-- Library function `std::cos` with a result of format `f`. -/
def fcos (M : Libm α) (f : Format α) : FVal α → FVal α
  | .fin x => (FVal.fin (M.cos x)).round f
  | _ => .nan

/-- Library function `std::sin` with a result of format `f`. -/
def fsin (M : Libm α) (f : Format α) : FVal α → FVal α
  | .fin x => (FVal.fin (M.sin x)).round f
  | _ => .nan

/-- Library function `std::atan2(y, x)`, before rounding. -/
def atan2Exact (M : Libm α) : FVal α → FVal α → FVal α
  | .fin y, .fin x => .fin (M.atan2 y x)
  | .fin _, .pinf => .fin 0
  | .fin y, .ninf => if y < 0 then .fin (-M.pi) else .fin M.pi
  | .pinf, .fin _ => .fin (M.pi / 2)
  | .ninf, .fin _ => .fin (-(M.pi / 2))
  | .pinf, .pinf => .fin (M.pi / 4)
  | .pinf, .ninf => .fin (3 * M.pi / 4)
  | .ninf, .pinf => .fin (-(M.pi / 4))
  | .ninf, .ninf => .fin (-(3 * M.pi / 4))
  | _, _ => .nan

/-- Library function `std::atan2(y, x)` with a result of format `f`. -/
def fatan2 (M : Libm α) (f : Format α) (y x : FVal α) : FVal α := (M.atan2Exact y x).round f

/-- The library computes the mathematical functions: `sqrt` is the
non-negative square root, and `cos`, `sin` of `atan2 y x` are the coordinates
of the unit vector along `(x, y)`. -/
structure Exact (M : Libm α) : Prop where
  sqrt_nonneg : ∀ x, 0 ≤ M.sqrt x
  sqrt_sq : ∀ x, 0 ≤ x → M.sqrt x * M.sqrt x = x
  cos_atan2 : ∀ y x, (x ≠ 0 ∨ y ≠ 0) → M.cos (M.atan2 y x) * M.sqrt (x * x + y * y) = x
  sin_atan2 : ∀ y x, (x ≠ 0 ∨ y ≠ 0) → M.sin (M.atan2 y x) * M.sqrt (x * x + y * y) = y
  atan2_zero : M.atan2 0 0 = 0
  cos_zero : M.cos 0 = 1
  sin_zero : M.sin 0 = 0

end Libm

/-! ## Data model (`ogls.h`, `main.cpp`) -/

/-- Source `struct OglsVec2`. -/
structure OglsVec2 (α : Type) where
  x : FVal α
  y : FVal α

/-- Source `struct OglsVec3`. -/
structure OglsVec3 (α : Type) where
  x : FVal α
  y : FVal α
  z : FVal α

/-- Source `struct Vertex`. -/
structure Vertex (α : Type) where
  pos : OglsVec2 α
  color : OglsVec3 α

/-- Source `struct BatchGroup`: the CPU-side vertex and index vectors (the GPU
handles carry no data of interest). -/
structure BatchGroup (α : Type) where
  vertices : List (Vertex α)
  indices : List Nat

/-- Source `struct Planet`. -/
structure Planet (α : Type) where
  mass : FVal α
  distance : FVal α
  radius : FVal α
  pos : OglsVec2 α
  vel : OglsVec2 α
  color : OglsVec3 α
  sun : Bool
  trailBatch : BatchGroup α

section Constants

variable {α : Type} [LinearOrderedField α]

/-- Macro `#define G_CONSTANT 6.6743e-11`. -/
def G_CONSTANT : FVal α := .fin (66743 / 1000000000000000)

/-- Macro `#define AU 1.496e+11`. -/
def AU : FVal α := .fin 149600000000

/-- Macro `#define PI (22.0f/7.0f)`. -/
def PI : FVal α := FVal.div binary32 (.fin 22) (.fin 7)

/-- Macro `#define SCREEN_SCALE static_cast<float>(2.67379679e-9)`: the
`binary32` number nearest to the decimal, `6020855 / 2^51`. -/
def SCREEN_SCALE : FVal α := .fin (6020855 / 2251799813685248)

/-- Macro `#define TRAIL_LINE_COLOR 0.43, 0.43, 0.43`. -/
def TRAIL_LINE_COLOR : OglsVec3 α := ⟨.fin (43 / 100), .fin (43 / 100), .fin (43 / 100)⟩

/-- Constant `s_MaxTrailVertices = UINT16_MAX`. -/
def s_MaxTrailVertices : Nat := 65535

end Constants

section Physics

variable {α : Type} [LinearOrderedField α]

/-- Function `getPlanetAttraction` (main.cpp 287-300). -/
def getPlanetAttraction (M : Libm α) (p1 p2 : Planet α) : OglsVec2 α :=
  let distx := FVal.sub binary32 p1.pos.x p2.pos.x
  let disty := FVal.sub binary32 p1.pos.y p2.pos.y
  let distance :=
    (M.fsqrt binary64 (FVal.add binary64 (distx.pow2 binary64) (disty.pow2 binary64))).round
      binary32
  let force :=
    (FVal.div binary64 (FVal.mul binary64 (FVal.mul binary64 G_CONSTANT p1.mass) p2.mass)
      (distance.pow2 binary64)).round binary32
  let theta := M.fatan2 binary32 disty distx
  let fx := FVal.mul binary32 force (M.fcos binary32 theta)
  let fy := FVal.mul binary32 force (M.fsin binary32 theta)
  ⟨-fx, -fy⟩

/-- The value written to `planet.distance` at main.cpp 480: the `double`
square root of the sum of the squared coordinate differences, stored as
`float`. -/
def distanceTo (M : Libm α) (planet pj : Planet α) : FVal α :=
  (M.fsqrt binary64
    (FVal.add binary64 ((FVal.sub binary32 planet.pos.x pj.pos.x).pow2 binary64)
      ((FVal.sub binary32 planet.pos.y pj.pos.y).pow2 binary64))).round binary32

/-- Inner loop of the physics step for body `i` (main.cpp 475-486): `j` is
the loop counter, the list holds `planets[j]`, `planets[j+1]`, ...; the state is
`planets[i]` (its `distance` is written in the loop) and `sumOfForces`. -/
def accumulateForces (M : Libm α) (i : Nat) :
    Nat → List (Planet α) → Planet α × OglsVec2 α → Planet α × OglsVec2 α
  | _, [], acc => acc
  | j, pj :: rest, (planet, sumOfForces) =>
    if i = j then accumulateForces M i (j + 1) rest (planet, sumOfForces)
    else
      let planet :=
        if pj.sun then
          { planet with distance := distanceTo M planet pj }
        else planet
      let f := getPlanetAttraction M planet pj
      accumulateForces M i (j + 1) rest
        (planet, ⟨FVal.add binary32 sumOfForces.x f.x, FVal.add binary32 sumOfForces.y f.y⟩)

/-- Body of the outer loop for index `i` (main.cpp 472-492): the new value of
`planets[i]`, computed from the list `planets` as it stands at that moment. -/
def updatePlanet (M : Libm α) (timeStep : FVal α) (planets : List (Planet α)) (i : Nat)
    (planet : Planet α) : Planet α :=
  let r := accumulateForces M i 0 planets (planet, ⟨.fin 0, .fin 0⟩)
  let planet := r.1
  let sumOfForces := r.2
  let velx :=
    FVal.add binary32 planet.vel.x
      (FVal.mul binary32 (FVal.div binary32 sumOfForces.x planet.mass) timeStep)
  let vely :=
    FVal.add binary32 planet.vel.y
      (FVal.mul binary32 (FVal.div binary32 sumOfForces.y planet.mass) timeStep)
  let posx := FVal.add binary32 planet.pos.x (FVal.mul binary32 velx timeStep)
  let posy := FVal.add binary32 planet.pos.y (FVal.mul binary32 vely timeStep)
  { planet with vel := ⟨velx, vely⟩, pos := ⟨posx, posy⟩ }

/-- Outer loop from counter `i`, with `n` iterations left: each iteration
overwrites `planets[i]` in place. -/
def physicsLoop (M : Libm α) (timeStep : FVal α) : Nat → Nat → List (Planet α) → List (Planet α)
  | 0, _, planets => planets
  | n + 1, i, planets =>
    match planets[i]? with
    | some planet =>
      physicsLoop M timeStep n (i + 1) (planets.set i (updatePlanet M timeStep planets i planet))
    | none => planets

/-- One unpaused physics step (main.cpp 470-493). -/
def physicsStep (M : Libm α) (timeStep : FVal α) (planets : List (Planet α)) : List (Planet α) :=
  physicsLoop M timeStep planets.length 0 planets

/-- The two-phase reference step of the specification: every body is advanced
from the forces computed on the list as it stood at the start of the step. -/
def twoPhaseStep (M : Libm α) (timeStep : FVal α) (planets : List (Planet α)) :
    List (Planet α) :=
  planets.enum.map fun ip => updatePlanet M timeStep planets ip.1 ip.2

end Physics

section Batch

variable {α : Type} [LinearOrderedField α]

/-- One iteration of the loop of `drawPoly` (main.cpp 177-189); `i` is a
`uint32_t`, so `i + 1` and `i + 2` wrap at `2^32`. -/
def drawPolyIter (M : Libm α) (pos : OglsVec2 α) (color : OglsVec3 α) (radius angle : FVal α)
    (batch : BatchGroup α) (i : Nat) : BatchGroup α :=
  let circlex := M.fcos binary32 (FVal.mul binary32 (.fin (i : α)) angle)
  let circley := M.fsin binary32 (FVal.mul binary32 (.fin (i : α)) angle)
  let posx := FVal.add binary32 pos.x (FVal.mul binary32 radius circlex)
  let posy := FVal.add binary32 pos.y (FVal.mul binary32 radius circley)
  { vertices := batch.vertices ++ [⟨⟨posx, posy⟩, color⟩]
    indices := batch.indices ++ [0, (i + 1) % 2 ^ 32, (i + 2) % 2 ^ 32] }

/-- The vertex and index vectors `drawPoly` builds (main.cpp 167-192) before
it uploads and draws them.  `none` is undefined behaviour: the statement
`indices.back() = indices[1]` on a vector with fewer than two elements. -/
def drawPoly (M : Libm α) (_batch : BatchGroup α) (pos : OglsVec2 α) (color : OglsVec3 α)
    (radius : FVal α) (nSides : Nat) : Option (BatchGroup α) :=
  let batch : BatchGroup α := { vertices := [⟨pos, color⟩], indices := [] }
  let twoPi : FVal α := FVal.mul binary32 (.fin 2) PI
  let angle := FVal.div binary32 twoPi (.fin (nSides : α))
  let batch := (List.range nSides).foldl (drawPolyIter M pos color radius angle) batch
  match batch.indices[1]? with
  | some v => some { batch with indices := batch.indices.dropLast ++ [v] }
  | none => none

/-- The vertex and index vectors `drawLine` builds (main.cpp 202-209). -/
def drawLine (_batch : BatchGroup α) (pos1 pos2 : OglsVec2 α) (color : OglsVec3 α) :
    BatchGroup α :=
  { vertices := [⟨pos1, color⟩, ⟨pos2, color⟩], indices := [0, 1, 2, 3] }

/-- The trail vector after `drawTrail` (main.cpp 219-223). -/
def drawTrail (batch : BatchGroup α) (pos : OglsVec2 α) (color : OglsVec3 α) : BatchGroup α :=
  let vertices :=
    if batch.vertices.length ≥ s_MaxTrailVertices then batch.vertices.tail else batch.vertices
  { batch with vertices := vertices ++ [⟨pos, color⟩] }

end Batch

section Controller

variable {α : Type} [LinearOrderedField α]

/-- Function `initPlanet` (main.cpp 255-279): the record and an empty trail batch. -/
def initPlanet (mass distance radius : FVal α) (pos vel : OglsVec2 α) (color : OglsVec3 α)
    (sun : Bool) : Planet α :=
  { mass := mass, distance := distance, radius := radius, pos := pos, vel := vel,
    color := color, sun := sun, trailBatch := { vertices := [], indices := [] } }

/-- A decimal literal `n / d`. -/
def lit (n d : Nat) : FVal α := .fin ((n : α) / (d : α))

/-- A product `c * AU` of main.cpp 390-414 with `c = n / d`: computed in
`double` and stored as `float`. -/
def auTimes (n d : Nat) : FVal α := (FVal.mul binary64 (lit n d) AU).round binary32

/-- The ten bodies of main.cpp 386-416. -/
def initialPlanets : List (Planet α) :=
  [ initPlanet (lit 1989100000000000000000000000000 1) (lit 0 1) (lit 35 1)
      ⟨lit 0 1, lit 0 1⟩ ⟨lit 0 1, lit 0 1⟩ ⟨lit 1 1, lit 92 100, lit 0 1⟩ true,
    initPlanet (lit 330000000000000000000000 1) (auTimes 387 1000) (lit 4 1)
      ⟨auTimes 387 1000, lit 0 1⟩ ⟨lit 0 1, lit 47400 1⟩
      ⟨lit 64 100, lit 65 100, lit 68 100⟩ false,
    initPlanet (lit 4980000000000000000000000 1) (auTimes 72 100) (lit 10 1)
      ⟨auTimes 72 100, lit 0 1⟩ ⟨lit 0 1, lit 35000 1⟩
      ⟨lit 90 100, lit 76 100, lit 57 100⟩ false,
    initPlanet (lit 5970000000000000000000000 1) AU (lit 11 1)
      ⟨AU, lit 0 1⟩ ⟨lit 0 1, lit 29800 1⟩
      ⟨lit 26 100, lit 58 100, lit 94 100⟩ false,
    initPlanet (lit 642000000000000000000000 1) (auTimes 15 10) (lit 8 1)
      ⟨auTimes 15 10, lit 0 1⟩ ⟨lit 0 1, lit 24100 1⟩
      ⟨lit 96 100, lit 28 100, lit 24 100⟩ false,
    initPlanet (lit 1868000000000000000000000000 1) (auTimes 52 10) (lit 30 1)
      ⟨auTimes 52 10, lit 0 1⟩ ⟨lit 0 1, lit 13100 1⟩
      ⟨lit 85 100, lit 56 100, lit 16 100⟩ false,
    initPlanet (lit 568000000000000000000000000 1) (auTimes 95 10) (lit 28 1)
      ⟨auTimes 95 10, lit 0 1⟩ ⟨lit 0 1, lit 9700 1⟩
      ⟨lit 59 100, lit 49 100, lit 36 100⟩ false,
    initPlanet (lit 86800000000000000000000000 1) (auTimes 19 1) (lit 18 1)
      ⟨auTimes 19 1, lit 0 1⟩ ⟨lit 0 1, lit 6800 1⟩
      ⟨lit 0 1, lit 53 100, lit 66 100⟩ false,
    initPlanet (lit 102000000000000000000000000 1) (auTimes 30 1) (lit 18 1)
      ⟨auTimes 30 1, lit 0 1⟩ ⟨lit 0 1, lit 5400 1⟩
      ⟨lit 6 100, lit 20 100, lit 53 100⟩ false,
    initPlanet (lit 13000000000000000000000 1) (auTimes 39 1) (lit 3 1)
      ⟨auTimes 39 1, lit 0 1⟩ ⟨lit 0 1, lit 4700 1⟩
      ⟨lit 91 100, lit 91 100, lit 91 100⟩ false ]

/-- The variables of `main` that the simulation reads and writes. -/
structure State (α : Type) where
  planets : List (Planet α)
  planetCopies : List (Planet α)
  camx : FVal α
  camy : FVal α
  scale : FVal α
  timeStep : FVal α
  trailPaths : Bool
  pause : Bool

/-- The state before the first frame (main.cpp 416-427). -/
def initialState : State α :=
  { planets := initialPlanets, planetCopies := initialPlanets,
    camx := lit 0 1, camy := lit 0 1, scale := lit 1 1, timeStep := lit 86400 1,
    trailPaths := false, pause := false }

/-- The keys polled by `cameraMovement` and `cameraScale`. -/
structure Keys where
  leftShift : Bool
  d : Bool
  a : Bool
  w : Bool
  s : Bool
  minus : Bool
  equal : Bool

/-- Function `cameraMovement` (main.cpp 118-143): the new `(x, y)`. -/
def cameraMovement (keys : Keys) (x y dt : FVal α) : FVal α × FVal α :=
  let speed : FVal α := lit 1000 1
  let speed := if keys.leftShift then FVal.mul binary32 speed (lit 10 1) else speed
  let x := if keys.d then FVal.sub binary32 x (FVal.mul binary32 speed dt) else x
  let x := if keys.a then FVal.add binary32 x (FVal.mul binary32 speed dt) else x
  let y := if keys.w then FVal.sub binary32 y (FVal.mul binary32 speed dt) else y
  let y := if keys.s then FVal.add binary32 y (FVal.mul binary32 speed dt) else y
  (x, y)

/-- Function `cameraScale` (main.cpp 145-165): the new scale. -/
def cameraScale (keys : Keys) (scale dt : FVal α) : FVal α :=
  let speed : FVal α := lit 10 1
  let speed := if keys.leftShift then FVal.mul binary32 speed (lit 10 1) else speed
  let scale := if keys.minus then FVal.add binary32 scale (FVal.mul binary32 speed dt) else scale
  let scale := if keys.equal then FVal.sub binary32 scale (FVal.mul binary32 speed dt) else scale
  if scale.lt (lit 5 10) then lit 5 10 else scale

/-- The "Delete the sun" button (main.cpp 603-614): erase the first body
flagged `sun`. -/
def deleteSun : List (Planet α) → List (Planet α)
  | [] => []
  | p :: ps => if p.sun then ps else p :: deleteSun ps

/-- The "Delete a random planet" button (main.cpp 619-627); `r` is the value
returned by `rand()`. -/
def deleteRandomPlanet (r : Nat) (planets : List (Planet α)) : List (Planet α) :=
  match planets with
  | [] => planets
  | [p] => if p.sun then planets else []
  | _ => planets.eraseIdx (1 + r % (planets.length - 1))

/-- Clearing the trail of every body (main.cpp 566-570, 574-578). -/
def clearTrails (planets : List (Planet α)) : List (Planet α) :=
  planets.map fun planet => { planet with trailBatch := { vertices := [], indices := [] } }

/-- The restart button (main.cpp 593-599). -/
def restart (s : State α) : State α :=
  { s with planets := s.planetCopies, camx := lit 0 1, camy := lit 0 1, scale := lit 1 1,
           timeStep := lit 86400 1 }

/-- The per-frame update before the settings panel (main.cpp 457-506): camera
keys, the physics step unless paused, and the trail append when enabled.  The
`drawPoly` calls only fill the scratch batch and are left out. -/
def frame (M : Libm α) (keys : Keys) (dt : FVal α) (s : State α) : State α :=
  let cam := cameraMovement keys s.camx s.camy dt
  let scale := cameraScale keys s.scale dt
  let planets := if s.pause then s.planets else physicsStep M s.timeStep s.planets
  let planets :=
    if s.trailPaths then
      planets.map fun planet =>
        { planet with
          trailBatch :=
            drawTrail planet.trailBatch
              ⟨FVal.mul binary32 planet.pos.x SCREEN_SCALE,
                FVal.mul binary32 planet.pos.y SCREEN_SCALE⟩ TRAIL_LINE_COLOR }
    else planets
  { s with planets := planets, camx := cam.1, camy := cam.2, scale := scale }

/-- The main loop running one frame per input (keys held and elapsed time),
without the settings panel (main.cpp 439-506). -/
def runFrames (M : Libm α) (inputs : List (Keys × FVal α)) (s : State α) : State α :=
  inputs.foldl (fun st kd => frame M kd.1 kd.2 st) s

/-- What can happen between two states: a frame, or one widget of the settings
panel (main.cpp 562-646). -/
inductive Action (α : Type) where
  | frame (keys : Keys) (dt : FVal α)
  | dragZoom (v : FVal α)
  | dragTimeStep (v : FVal α)
  | toggleTrailPaths
  | clearTrailPaths
  | togglePause
  | restart
  | deleteSun
  | deleteRandomPlanet (r : Nat)
  | plutoMass
  | allMass
  | zeroVelocity

/-- Effect of an action; `none` is undefined behaviour (the write to
`planets[9]` when the list has fewer than ten bodies). -/
def applyAction (M : Libm α) (s : State α) : Action α → Option (State α)
  | .frame keys dt => some (frame M keys dt s)
  | .dragZoom v => some { s with scale := v }
  | .dragTimeStep v => some { s with timeStep := v }
  | .toggleTrailPaths =>
    some { s with trailPaths := !s.trailPaths, planets := clearTrails s.planets }
  | .clearTrailPaths => some { s with planets := clearTrails s.planets }
  | .togglePause => some { s with pause := !s.pause }
  | .restart => some (restart s)
  | .deleteSun => some { s with planets := deleteSun s.planets }
  | .deleteRandomPlanet r => some { s with planets := deleteRandomPlanet r s.planets }
  | .plutoMass =>
    match s.planets[9]? with
    | some pluto =>
      some { s with
             planets := s.planets.set 9 { pluto with mass := lit 1989100000000000000000000000000 1 } }
    | none => none
  | .allMass =>
    some { s with
           planets := s.planets.map fun planet =>
             { planet with mass := lit 1989100000000000000000000000000 1 } }
  | .zeroVelocity =>
    some { s with
           planets := s.planets.map fun planet =>
             if planet.sun then planet else { planet with vel := ⟨lit 0 1, lit 0 1⟩ } }

/-- States the program can be in: the initial state and every state obtained
from a reachable one by an action. -/
inductive Reachable (M : Libm α) : State α → Prop where
  | init : Reachable M initialState
  | step (s s2 : State α) (a : Action α) : Reachable M s → applyAction M s a = some s2 →
      Reachable M s2

end Controller

section Observables

variable {α : Type} [LinearOrderedField α]

/-- A body created by `initPlanet` with finite mass `m`, position `(x, y)` and
velocity `(vx, vy)`; it is not a sun, its radius is 1 and its colour white. -/
def pointMass (m x y vx vy : α) : Planet α :=
  initPlanet (.fin m) (.fin 0) (.fin 1) ⟨.fin x, .fin y⟩ ⟨.fin vx, .fin vy⟩
    ⟨.fin 1, .fin 1, .fin 1⟩ false

/-- Centre-of-mass velocity `(m1*v1 + m2*v2) / (m1 + m2)` of a two-body list,
computed with float arithmetic. -/
def comVelocity : List (Planet α) → Option (OglsVec2 α)
  | [a, b] =>
    some ⟨FVal.div binary32
            (FVal.add binary32 (FVal.mul binary32 a.mass a.vel.x)
              (FVal.mul binary32 b.mass b.vel.x))
            (FVal.add binary32 a.mass b.mass),
          FVal.div binary32
            (FVal.add binary32 (FVal.mul binary32 a.mass a.vel.y)
              (FVal.mul binary32 b.mass b.vel.y))
            (FVal.add binary32 a.mass b.mass)⟩
  | _ => none

/-- No intermediate result of `getPlanetAttraction` on masses `m1`, `m2` at
`(x1, y1)` and `(x2, y2)`, at distance `d`, overflows or underflows its format. -/
def AttractionFits (M : Libm α) (m1 m2 x1 y1 x2 y2 d : α) : Prop :=
  FVal.Fits binary32 (x1 - x2) ∧ FVal.Fits binary32 (y1 - y2) ∧
  FVal.Fits binary64 ((x1 - x2) * (x1 - x2)) ∧ FVal.Fits binary64 ((y1 - y2) * (y1 - y2)) ∧
  FVal.Fits binary64 ((x1 - x2) * (x1 - x2) + (y1 - y2) * (y1 - y2)) ∧
  FVal.Fits binary64 d ∧ FVal.Fits binary32 d ∧ FVal.Fits binary64 (d * d) ∧
  FVal.Fits binary64 (66743 / 1000000000000000 * m1) ∧
  FVal.Fits binary64 (66743 / 1000000000000000 * m1 * m2) ∧
  FVal.Fits binary64 (66743 / 1000000000000000 * m1 * m2 / (d * d)) ∧
  FVal.Fits binary32 (66743 / 1000000000000000 * m1 * m2 / (d * d)) ∧
  FVal.Fits binary32 (M.atan2 (y1 - y2) (x1 - x2)) ∧
  FVal.Fits binary32 ((x1 - x2) / d) ∧ FVal.Fits binary32 ((y1 - y2) / d) ∧
  FVal.Fits binary32 (66743 / 1000000000000000 * m1 * m2 / (d * d) * ((x1 - x2) / d)) ∧
  FVal.Fits binary32 (66743 / 1000000000000000 * m1 * m2 / (d * d) * ((y1 - y2) / d))

end Observables

/-- The C library over the real numbers. -/
noncomputable def realLibm : Libm ℝ where
  sqrt := Real.sqrt
  atan2 := fun y x => Complex.arg ⟨x, y⟩
  cos := Real.cos
  sin := Real.sin
  pi := Real.pi

/-! ## Lemmas on the numeric model -/

namespace FVal

variable {α : Type} [LinearOrderedField α]

theorem round_fin (f : Format α) {x : α} (h : Fits f x) : round f (fin x) = fin x := by
  obtain ⟨h1, h2, h3⟩ := h
  simp only [round]
  rw [if_neg (not_le.2 h2), if_neg (not_le.2 h1)]
  rcases h3 with h0 | hlt | hgt
  · subst h0
    split <;> rfl
  · rw [if_neg (fun hc => absurd hc.1 (not_le.2 hlt))]
  · rw [if_neg (fun hc => absurd hc.2 (not_le.2 hgt))]

theorem add_fin (f : Format α) {a b : α} (h : Fits f (a + b)) :
    add f (fin a) (fin b) = fin (a + b) := round_fin f h

theorem sub_fin (f : Format α) {a b : α} (h : Fits f (a - b)) :
    sub f (fin a) (fin b) = fin (a - b) := by
  show round f (fin (a + -b)) = fin (a - b)
  rw [← sub_eq_add_neg]
  exact round_fin f h

theorem mul_fin (f : Format α) {a b : α} (h : Fits f (a * b)) :
    mul f (fin a) (fin b) = fin (a * b) := round_fin f h

theorem pow2_fin (f : Format α) {a : α} (h : Fits f (a * a)) :
    pow2 f (fin a) = fin (a * a) := round_fin f h

theorem div_fin (f : Format α) {a b : α} (hb : b ≠ 0) (h : Fits f (a / b)) :
    div f (fin a) (fin b) = fin (a / b) := by
  show round f (divExact (fin a) (fin b)) = fin (a / b)
  simp only [divExact, if_neg hb]
  exact round_fin f h

@[simp] theorem neg_fin (a : α) : (-(fin a) : FVal α) = fin (-a) := rfl

theorem div_zero_pos (f : Format α) {a : α} (ha : 0 < a) : div f (fin a) (fin 0) = pinf := by
  show round f (divExact (fin a) (fin 0)) = pinf
  simp [divExact, ha, ha.ne.symm, round]

theorem fits_zero (f : Format α) (h : 0 < f.overflow) : Fits f (0 : α) :=
  ⟨neg_lt_zero.2 h, h, Or.inl rfl⟩

end FVal

section LibmLemmas

variable {α : Type} [LinearOrderedField α]

theorem Libm.Exact.sqrt_mul_self {M : Libm α} (hM : M.Exact) {d : α} (hd : 0 ≤ d) :
    M.sqrt (d * d) = d := by
  have h1 := hM.sqrt_nonneg (d * d)
  have h2 := hM.sqrt_sq (d * d) (mul_self_nonneg d)
  exact (mul_self_inj h1 hd).1 h2

theorem Libm.sqrtExact_fin (M : Libm α) {x : α} (hx : 0 ≤ x) :
    M.sqrtExact (.fin x) = .fin (M.sqrt x) := by
  simp [Libm.sqrtExact, not_lt.2 hx]

theorem fits_binary32_one : FVal.Fits binary32 (1 : α) := by
  refine ⟨?_, ?_, Or.inr (Or.inr ?_)⟩ <;> simp only [binary32] <;> norm_num

theorem binary32_overflow_pos : (0 : α) < (binary32 : Format α).overflow := by
  simp only [binary32]
  norm_num

theorem binary64_overflow_pos : (0 : α) < (binary64 : Format α).overflow := by
  simp only [binary64]
  norm_num

theorem realLibm_exact : realLibm.Exact where
  sqrt_nonneg := Real.sqrt_nonneg
  sqrt_sq := fun x hx => Real.mul_self_sqrt hx
  cos_atan2 := by
    intro y x h
    have hz : (⟨x, y⟩ : ℂ) ≠ 0 := by
      intro h0
      have h1 := congrArg Complex.re h0
      have h2 := congrArg Complex.im h0
      simp at h1 h2
      rcases h with h | h
      · exact h h1
      · exact h h2
    have habs : Complex.abs ⟨x, y⟩ = Real.sqrt (x * x + y * y) := by
      rw [Complex.abs_apply, Complex.normSq_mk]
    show Real.cos (Complex.arg ⟨x, y⟩) * Real.sqrt (x * x + y * y) = x
    rw [Complex.cos_arg hz, habs]
    have hne : Real.sqrt (x * x + y * y) ≠ 0 := by
      rw [← habs]
      exact (map_ne_zero Complex.abs).2 hz
    field_simp
  sin_atan2 := by
    intro y x h
    have hz : (⟨x, y⟩ : ℂ) ≠ 0 := by
      intro h0
      have h1 := congrArg Complex.re h0
      have h2 := congrArg Complex.im h0
      simp at h1 h2
      rcases h with h | h
      · exact h h1
      · exact h h2
    have habs : Complex.abs ⟨x, y⟩ = Real.sqrt (x * x + y * y) := by
      rw [Complex.abs_apply, Complex.normSq_mk]
    show Real.sin (Complex.arg ⟨x, y⟩) * Real.sqrt (x * x + y * y) = y
    rw [Complex.sin_arg, habs]
    have hne : Real.sqrt (x * x + y * y) ≠ 0 := by
      rw [← habs]
      exact (map_ne_zero Complex.abs).2 hz
    field_simp
  atan2_zero := by
    show Complex.arg ⟨0, 0⟩ = 0
    have : (⟨0, 0⟩ : ℂ) = 0 := rfl
    rw [this, Complex.arg_zero]
  cos_zero := Real.cos_zero
  sin_zero := Real.sin_zero

/-- Closed form of `getPlanetAttraction` on finite bodies at distance `d > 0`
when no intermediate result overflows or underflows. -/
theorem getPlanetAttraction_of_dist {M : Libm α} (hM : M.Exact) (p1 p2 : Planet α)
    {m1 m2 x1 y1 x2 y2 d : α}
    (hm1 : p1.mass = .fin m1) (hm2 : p2.mass = .fin m2)
    (hp1 : p1.pos = ⟨.fin x1, .fin y1⟩) (hp2 : p2.pos = ⟨.fin x2, .fin y2⟩)
    (hd : 0 < d) (hdd : d * d = (x1 - x2) * (x1 - x2) + (y1 - y2) * (y1 - y2))
    (hfit : AttractionFits M m1 m2 x1 y1 x2 y2 d) :
    getPlanetAttraction M p1 p2 =
      ⟨.fin (66743 / 1000000000000000 * m1 * m2 / (d * d) * ((x2 - x1) / d)),
       .fin (66743 / 1000000000000000 * m1 * m2 / (d * d) * ((y2 - y1) / d))⟩ := by
  obtain ⟨f1, f2, f3, f4, f5, f6, f7, f8, f9, f10, f11, f12, f13, f14, f15, f16, f17⟩ := hfit
  have hne : (x1 - x2) ≠ 0 ∨ (y1 - y2) ≠ 0 := by
    by_contra hcon
    push_neg at hcon
    rw [hcon.1, hcon.2] at hdd
    simp at hdd
    exact hd.ne.symm hdd
  have hsq : M.sqrt ((x1 - x2) * (x1 - x2) + (y1 - y2) * (y1 - y2)) = d := by
    rw [← hdd]
    exact hM.sqrt_mul_self hd.le
  have hc := hM.cos_atan2 (y1 - y2) (x1 - x2) hne
  have hs := hM.sin_atan2 (y1 - y2) (x1 - x2) hne
  rw [hsq] at hc hs
  have hdne : d ≠ 0 := hd.ne.symm
  have hddne : d * d ≠ 0 := mul_ne_zero hdne hdne
  have hnn : 0 ≤ (x1 - x2) * (x1 - x2) + (y1 - y2) * (y1 - y2) := by
    rw [← hdd]
    exact mul_self_nonneg d
  have hcos : M.cos (M.atan2 (y1 - y2) (x1 - x2)) = (x1 - x2) / d := by
    rw [eq_div_iff hdne]
    exact hc
  have hsin : M.sin (M.atan2 (y1 - y2) (x1 - x2)) = (y1 - y2) / d := by
    rw [eq_div_iff hdne]
    exact hs
  have e1 : M.fsqrt binary64 (.fin ((x1 - x2) * (x1 - x2) + (y1 - y2) * (y1 - y2))) = .fin d := by
    show (M.sqrtExact _).round binary64 = _
    rw [Libm.sqrtExact_fin M hnn, hsq]
    exact FVal.round_fin _ f6
  have e2 : M.fatan2 binary32 (.fin (y1 - y2)) (.fin (x1 - x2)) =
      .fin (M.atan2 (y1 - y2) (x1 - x2)) := FVal.round_fin _ f13
  have e3 : M.fcos binary32 (.fin (M.atan2 (y1 - y2) (x1 - x2))) = .fin ((x1 - x2) / d) := by
    show (FVal.fin (M.cos _)).round binary32 = _
    rw [hcos]
    exact FVal.round_fin _ f14
  have e4 : M.fsin binary32 (.fin (M.atan2 (y1 - y2) (x1 - x2))) = .fin ((y1 - y2) / d) := by
    show (FVal.fin (M.sin _)).round binary32 = _
    rw [hsin]
    exact FVal.round_fin _ f15
  simp only [getPlanetAttraction, hm1, hm2, hp1, hp2, G_CONSTANT, FVal.sub_fin _ f1,
    FVal.sub_fin _ f2, FVal.pow2_fin _ f3, FVal.pow2_fin _ f4, FVal.add_fin _ f5, e1,
    FVal.round_fin _ f7, FVal.pow2_fin _ f8, FVal.mul_fin _ f9, FVal.mul_fin _ f10,
    FVal.div_fin _ hddne f11, FVal.round_fin _ f12, e2, e3, e4, FVal.mul_fin _ f16,
    FVal.mul_fin _ f17, FVal.neg_fin]
  congr 2 <;> ring

/-- Value of `getPlanetAttraction` on two finite bodies at the same position
with a positive product of masses: `-inf` and `NaN`. -/
theorem getPlanetAttraction_coincident {M : Libm α} (hM : M.Exact) (p1 p2 : Planet α)
    {m1 m2 x y : α} (hm1 : p1.mass = .fin m1) (hm2 : p2.mass = .fin m2)
    (hp1 : p1.pos = ⟨.fin x, .fin y⟩) (hp2 : p2.pos = ⟨.fin x, .fin y⟩)
    (hm : 0 < m1 * m2)
    (h1 : FVal.Fits binary64 (66743 / 1000000000000000 * m1))
    (h2 : FVal.Fits binary64 (66743 / 1000000000000000 * m1 * m2)) :
    getPlanetAttraction M p1 p2 = ⟨.ninf, .nan⟩ := by
  have hs0 : M.sqrt 0 = 0 := by
    have := hM.sqrt_mul_self (le_refl (0 : α))
    simpa using this
  have hG : (0 : α) < 66743 / 1000000000000000 * m1 * m2 := by
    have : (0 : α) < 66743 / 1000000000000000 := by norm_num
    rw [mul_assoc]
    exact mul_pos this hm
  have z32 : FVal.Fits binary32 (0 : α) := FVal.fits_zero _ binary32_overflow_pos
  have z64 : FVal.Fits binary64 (0 : α) := FVal.fits_zero _ binary64_overflow_pos
  have zx : FVal.Fits binary32 (x - x) := by rw [sub_self]; exact z32
  have zy : FVal.Fits binary32 (y - y) := by rw [sub_self]; exact z32
  have zz : FVal.Fits binary64 ((0 : α) * 0) := by rw [mul_zero]; exact z64
  have za : FVal.Fits binary64 ((0 : α) + 0) := by rw [add_zero]; exact z64
  have e1 : M.fsqrt binary64 (.fin (0 : α)) = .fin 0 := by
    show (M.sqrtExact _).round binary64 = _
    rw [Libm.sqrtExact_fin M (le_refl (0 : α)), hs0]
    exact FVal.round_fin _ z64
  have e2 : M.fatan2 binary32 (.fin (0 : α)) (.fin 0) = .fin 0 := by
    show (FVal.fin (M.atan2 0 0)).round binary32 = _
    rw [hM.atan2_zero]
    exact FVal.round_fin _ z32
  have e3 : M.fcos binary32 (.fin (0 : α)) = .fin 1 := by
    show (FVal.fin (M.cos 0)).round binary32 = _
    rw [hM.cos_zero]
    exact FVal.round_fin _ fits_binary32_one
  have e4 : M.fsin binary32 (.fin (0 : α)) = .fin 0 := by
    show (FVal.fin (M.sin 0)).round binary32 = _
    rw [hM.sin_zero]
    exact FVal.round_fin _ z32
  simp only [getPlanetAttraction, hm1, hm2, hp1, hp2, G_CONSTANT, FVal.sub_fin _ zx,
    FVal.sub_fin _ zy, sub_self, FVal.pow2_fin _ zz, mul_zero, FVal.add_fin _ za, add_zero, e1,
    FVal.round_fin _ z32, FVal.mul_fin _ h1, FVal.mul_fin _ h2, FVal.div_zero_pos _ hG, e2, e3,
    e4]
  have r1 : FVal.round binary32 (FVal.pinf : FVal α) = .pinf := rfl
  have m1 : FVal.mul binary32 (FVal.pinf : FVal α) (.fin 1) = .pinf := by
    show FVal.round binary32 (FVal.infMul true (1 : α)) = .pinf
    simp [FVal.infMul]
    rfl
  have m2 : FVal.mul binary32 (FVal.pinf : FVal α) (.fin 0) = .nan := by
    show FVal.round binary32 (FVal.infMul true (0 : α)) = .nan
    simp [FVal.infMul]
    rfl
  rw [r1, m1, m2]
  rfl

end LibmLemmas

/-! ## The force function -/

section Force

variable {α : Type} [LinearOrderedField α]

theorem realLibm_atan2_zero_pos {x : ℝ} (hx : 0 ≤ x) : realLibm.atan2 0 x = 0 :=
  Complex.arg_ofReal_of_nonneg hx

theorem realLibm_atan2_zero_neg {x : ℝ} (hx : x < 0) : realLibm.atan2 0 x = Real.pi :=
  Complex.arg_ofReal_of_neg hx

theorem fits_binary32_pi : FVal.Fits binary32 Real.pi := by
  have h3 := Real.pi_gt_three
  have h4 := Real.pi_le_four
  refine ⟨?_, ?_, Or.inr (Or.inr ?_)⟩ <;> simp only [binary32] <;> norm_num <;> linarith

/-- Claim C2, evaluated at the failing input: two bodies of mass 1 at the
origin attract each other with `(-inf, NaN)` in both directions, so
`getPlanetAttraction A B` is not the componentwise negation `(+inf, NaN)` of
`getPlanetAttraction B A`. -/
theorem C2_counterexample :
    getPlanetAttraction realLibm (pointMass 1 0 0 0 0) (pointMass 1 0 0 1 0) = ⟨.ninf, .nan⟩ ∧
    (⟨-(getPlanetAttraction realLibm (pointMass 1 0 0 1 0) (pointMass 1 0 0 0 0)).x,
      -(getPlanetAttraction realLibm (pointMass 1 0 0 1 0) (pointMass 1 0 0 0 0)).y⟩ :
        OglsVec2 ℝ) = ⟨.pinf, .nan⟩ ∧
    getPlanetAttraction realLibm (pointMass 1 0 0 0 0) (pointMass 1 0 0 1 0) ≠
      ⟨-(getPlanetAttraction realLibm (pointMass 1 0 0 1 0) (pointMass 1 0 0 0 0)).x,
       -(getPlanetAttraction realLibm (pointMass 1 0 0 1 0) (pointMass 1 0 0 0 0)).y⟩ := by
  have f1 : FVal.Fits binary64 (66743 / 1000000000000000 * (1 : ℝ)) := by
    refine ⟨?_, ?_, Or.inr (Or.inr ?_)⟩ <;> simp only [binary64] <;> norm_num
  have f2 : FVal.Fits binary64 (66743 / 1000000000000000 * (1 : ℝ) * 1) := by
    refine ⟨?_, ?_, Or.inr (Or.inr ?_)⟩ <;> simp only [binary64] <;> norm_num
  rw [getPlanetAttraction_coincident realLibm_exact _ _ rfl rfl rfl rfl (by norm_num) f1 f2,
    getPlanetAttraction_coincident realLibm_exact _ _ rfl rfl rfl rfl (by norm_num) f1 f2]
  refine ⟨rfl, rfl, ?_⟩
  intro h
  have hx := congrArg OglsVec2.x h
  exact FVal.noConfusion hx

/-- Claim C4, evaluated at the failing input: for bodies of mass 1 and 2 at
the same position the result is `(-inf, NaN)`, so neither component is
finite. -/
theorem C4_coincident_not_finite :
    getPlanetAttraction realLibm (pointMass 1 0 0 0 0) (pointMass 2 0 0 1 0) = ⟨.ninf, .nan⟩ ∧
      (getPlanetAttraction realLibm (pointMass 1 0 0 0 0) (pointMass 2 0 0 1 0)).x.isFinite
        = false ∧
      (getPlanetAttraction realLibm (pointMass 1 0 0 0 0) (pointMass 2 0 0 1 0)).y.isFinite
        = false := by
  have f1 : FVal.Fits binary64 (66743 / 1000000000000000 * (1 : ℝ)) := by
    refine ⟨?_, ?_, Or.inr (Or.inr ?_)⟩ <;> simp only [binary64] <;> norm_num
  have f2 : FVal.Fits binary64 (66743 / 1000000000000000 * (1 : ℝ) * 2) := by
    refine ⟨?_, ?_, Or.inr (Or.inr ?_)⟩ <;> simp only [binary64] <;> norm_num
  have h := getPlanetAttraction_coincident realLibm_exact (pointMass (1 : ℝ) 0 0 0 0)
    (pointMass 2 0 0 1 0) rfl rfl rfl rfl (by norm_num) f1 f2
  rw [h]
  exact ⟨rfl, rfl, rfl⟩

end Force

section ForceRange

variable {α : Type} [LinearOrderedField α]

theorem FVal.round_overflow (f : Format α) {x : α} (h : f.overflow ≤ x) :
    FVal.round f (.fin x) = .pinf := by
  simp only [FVal.round]
  rw [if_pos h]

theorem fits64_of_bounds {x : ℝ} (h1 : 1 / 2 ^ 1075 < x) (h2 : x < 2 ^ 1024 - 2 ^ 970) :
    FVal.Fits binary64 x := by
  have h0 : (0 : ℝ) < 1 / 2 ^ 1075 := by positivity
  refine ⟨?_, h2, Or.inr (Or.inr h1)⟩
  show -(2 ^ 1024 - 2 ^ 970 : ℝ) < x
  linarith

theorem fits32_of_bounds {x : ℝ} (h1 : 1 / 2 ^ 150 < x) (h2 : x < 2 ^ 128 - 2 ^ 103) :
    FVal.Fits binary32 x := by
  have h0 : (0 : ℝ) < 1 / 2 ^ 150 := by positivity
  refine ⟨?_, h2, Or.inr (Or.inr h1)⟩
  show -(2 ^ 128 - 2 ^ 103 : ℝ) < x
  linarith

theorem fits32_of_neg_bounds {x : ℝ} (h1 : x < -(1 / 2 ^ 150)) (h2 : -(2 ^ 128 - 2 ^ 103) < x) :
    FVal.Fits binary32 x := by
  have h0 : (0 : ℝ) < 1 / 2 ^ 150 := by positivity
  refine ⟨h2, ?_, Or.inr (Or.inl h1)⟩
  show x < (2 ^ 128 - 2 ^ 103 : ℝ)
  linarith

/-- Claim C5 as stated fails: for two bodies with the mass of the sun at
`(1,0)` and `(0,0)` the force `G*mA*mB/d^2` is about `2.6e50`, beyond the
range of `float`, and the result is `(-inf, NaN)`. -/
theorem C5_counterexample :
    getPlanetAttraction realLibm (pointMass 1989100000000000000000000000000 1 0 0 0)
      (pointMass 1989100000000000000000000000000 0 0 0 0) = ⟨.ninf, .nan⟩ := by
  have z32 : FVal.Fits binary32 (0 : ℝ) := FVal.fits_zero _ binary32_overflow_pos
  have z64 : FVal.Fits binary64 (0 : ℝ) := FVal.fits_zero _ binary64_overflow_pos
  have o32 : FVal.Fits binary32 (1 : ℝ) := fits_binary32_one
  have o64 : FVal.Fits binary64 (1 : ℝ) := fits64_of_bounds (by norm_num) (by norm_num)
  have a1 : FVal.sub binary32 (.fin (1 : ℝ)) (.fin 0) = .fin 1 := by
    rw [FVal.sub_fin _ (by rw [sub_zero]; exact o32), sub_zero]
  have a2 : FVal.sub binary32 (.fin (0 : ℝ)) (.fin 0) = .fin 0 := by
    rw [FVal.sub_fin _ (by rw [sub_zero]; exact z32), sub_zero]
  have a3 : FVal.pow2 binary64 (.fin (1 : ℝ)) = .fin 1 := by
    rw [FVal.pow2_fin _ (by rw [mul_one]; exact o64), mul_one]
  have a4 : FVal.pow2 binary64 (.fin (0 : ℝ)) = .fin 0 := by
    rw [FVal.pow2_fin _ (by rw [mul_zero]; exact z64), mul_zero]
  have a5 : FVal.add binary64 (.fin (1 : ℝ)) (.fin 0) = .fin 1 := by
    rw [FVal.add_fin _ (by rw [add_zero]; exact o64), add_zero]
  have a6 : realLibm.fsqrt binary64 (.fin (1 : ℝ)) = .fin 1 := by
    show (realLibm.sqrtExact _).round binary64 = _
    rw [Libm.sqrtExact_fin realLibm (by norm_num)]
    show FVal.round binary64 (.fin (Real.sqrt 1)) = _
    rw [Real.sqrt_one]
    exact FVal.round_fin _ o64
  have a7 : FVal.mul binary64 (.fin (66743 / 1000000000000000 : ℝ))
      (.fin 1989100000000000000000000000000) = .fin 132758501300000000000 := by
    rw [FVal.mul_fin _ (fits64_of_bounds (by norm_num) (by norm_num))]
    norm_num
  have a8 : FVal.mul binary64 (.fin (132758501300000000000 : ℝ))
      (.fin 1989100000000000000000000000000) =
      .fin 264069934935830000000000000000000000000000000000000 := by
    rw [FVal.mul_fin _ (fits64_of_bounds (by norm_num) (by norm_num))]
    norm_num
  have a9 : FVal.div binary64 (.fin (264069934935830000000000000000000000000000000000000 : ℝ))
      (.fin 1) = .fin 264069934935830000000000000000000000000000000000000 := by
    have h9 : FVal.Fits binary64 ((264069934935830000000000000000000000000000000000000 : ℝ) / 1) := by
      rw [div_one]
      exact fits64_of_bounds (by norm_num) (by norm_num)
    rw [FVal.div_fin _ one_ne_zero h9, div_one]
  have a10 : FVal.round binary32
      (.fin (264069934935830000000000000000000000000000000000000 : ℝ)) = .pinf :=
    FVal.round_overflow _ (by simp only [binary32]; norm_num)
  have a11 : realLibm.fatan2 binary32 (.fin (0 : ℝ)) (.fin 1) = .fin 0 := by
    show FVal.round binary32 (.fin (realLibm.atan2 0 1)) = _
    rw [realLibm_atan2_zero_pos (by norm_num)]
    exact FVal.round_fin _ z32
  have a12 : realLibm.fcos binary32 (.fin (0 : ℝ)) = .fin 1 := by
    show FVal.round binary32 (.fin (Real.cos 0)) = _
    rw [Real.cos_zero]
    exact FVal.round_fin _ o32
  have a13 : realLibm.fsin binary32 (.fin (0 : ℝ)) = .fin 0 := by
    show FVal.round binary32 (.fin (Real.sin 0)) = _
    rw [Real.sin_zero]
    exact FVal.round_fin _ z32
  have m1 : FVal.mul binary32 (FVal.pinf : FVal ℝ) (.fin 1) = .pinf := by
    show FVal.round binary32 (FVal.infMul true (1 : ℝ)) = .pinf
    simp [FVal.infMul]
    rfl
  have m2 : FVal.mul binary32 (FVal.pinf : FVal ℝ) (.fin 0) = .nan := by
    show FVal.round binary32 (FVal.infMul true (0 : ℝ)) = .nan
    simp [FVal.infMul]
    rfl
  simp only [getPlanetAttraction, pointMass, initPlanet, G_CONSTANT, a1, a2, a3, a4, a5, a6,
    FVal.round_fin _ o32, a7, a8, a9, a10, a11, a12, a13, m1, m2]
  rfl

end ForceRange

section ForceAmended

variable {α : Type} [LinearOrderedField α]

/-- Claim C5, amended: for two bodies with positive masses at distinct
positions, at Euclidean distance `d`, such that no intermediate result of the
computation overflows or underflows, `getPlanetAttraction A B` is `G*mA*mB/d^2`
times the unit vector from A to B; its magnitude is `G*mA*mB/d^2`. -/
theorem C5_attraction_magnitude_direction {M : Libm α} (hM : M.Exact) (A B : Planet α)
    {mA mB xA yA xB yB d : α} (hmA : A.mass = .fin mA) (hmB : B.mass = .fin mB)
    (hpA : A.pos = ⟨.fin xA, .fin yA⟩) (hpB : B.pos = ⟨.fin xB, .fin yB⟩)
    (hmApos : 0 < mA) (hmBpos : 0 < mB) (_hne : xA ≠ xB ∨ yA ≠ yB)
    (hd : 0 < d) (hdd : d * d = (xA - xB) * (xA - xB) + (yA - yB) * (yA - yB))
    (hfit : AttractionFits M mA mB xA yA xB yB d) :
    ∃ fx fy : α,
      getPlanetAttraction M A B = ⟨.fin fx, .fin fy⟩ ∧
      fx = 66743 / 1000000000000000 * mA * mB / (d * d) * ((xB - xA) / d) ∧
      fy = 66743 / 1000000000000000 * mA * mB / (d * d) * ((yB - yA) / d) ∧
      ((xB - xA) / d) * ((xB - xA) / d) + ((yB - yA) / d) * ((yB - yA) / d) = 1 ∧
      fx * fx + fy * fy =
        (66743 / 1000000000000000 * mA * mB / (d * d)) *
          (66743 / 1000000000000000 * mA * mB / (d * d)) ∧
      0 < 66743 / 1000000000000000 * mA * mB / (d * d) := by
  have hdne : d ≠ 0 := hd.ne.symm
  have hunit : ((xB - xA) / d) * ((xB - xA) / d) + ((yB - yA) / d) * ((yB - yA) / d) = 1 := by
    field_simp
    rw [hdd]
    ring
  refine ⟨_, _, getPlanetAttraction_of_dist hM A B hmA hmB hpA hpB hd hdd hfit, rfl, rfl, hunit, ?_, ?_⟩
  · have : ∀ F u v : α, u * u + v * v = 1 → (F * u) * (F * u) + (F * v) * (F * v) = F * F := by
      intro F u v h
      calc (F * u) * (F * u) + (F * v) * (F * v) = F * F * (u * u + v * v) := by ring
        _ = F * F := by rw [h, mul_one]
    exact this _ _ _ hunit
  · have hG : (0 : α) < 66743 / 1000000000000000 := by norm_num
    have := mul_pos (mul_pos hG hmApos) hmBpos
    exact div_pos this (mul_pos hd hd)

theorem attractionFits_three_four_five : AttractionFits realLibm 2 3 3 4 0 0 5 := by
  have hsq : Real.sqrt ((3 - 0) * (3 - 0) + (4 - 0) * (4 - 0)) = 5 := by
    have : ((3 - 0) * (3 - 0) + (4 - 0) * (4 - 0) : ℝ) = 5 * 5 := by norm_num
    rw [this]
    exact Real.sqrt_mul_self (by norm_num)
  have hsin := realLibm_exact.sin_atan2 (4 - 0) (3 - 0) (Or.inl (by norm_num))
  have hsin2 : Real.sin (realLibm.atan2 (4 - 0) (3 - 0)) * 5 = 4 - 0 := by
    rw [← hsq]
    exact hsin
  have hnn : 0 ≤ realLibm.atan2 (4 - 0) (3 - 0) := by
    show 0 ≤ Complex.arg ⟨3 - 0, 4 - 0⟩
    rw [Complex.arg_nonneg_iff]
    show (0 : ℝ) ≤ 4 - 0
    norm_num
  have hle := Real.sin_le hnn
  have hlow : (4 / 5 : ℝ) ≤ realLibm.atan2 (4 - 0) (3 - 0) := by
    have h5 : Real.sin (realLibm.atan2 (4 - 0) (3 - 0)) = 4 / 5 := by
      have h6 : Real.sin (realLibm.atan2 (4 - 0) (3 - 0)) * 5 = 4 := by
        rw [hsin2]
        norm_num
      rw [eq_div_iff (by norm_num : (5 : ℝ) ≠ 0)]
      exact h6
    rw [← h5]
    exact hle
  have hpi : realLibm.atan2 (4 - 0) (3 - 0) ≤ Real.pi := Complex.arg_le_pi _
  have h4 := Real.pi_le_four
  have hth : FVal.Fits binary32 (realLibm.atan2 (4 - 0) (3 - 0)) := by
    apply fits32_of_bounds
    · have h1 : (1 / 2 ^ 150 : ℝ) < 4 / 5 := by norm_num
      exact lt_of_lt_of_le h1 hlow
    · have h1 : (4 : ℝ) < 2 ^ 128 - 2 ^ 103 := by norm_num
      exact lt_of_le_of_lt (hpi.trans h4) h1
  exact ⟨fits32_of_bounds (by norm_num) (by norm_num),
    fits32_of_bounds (by norm_num) (by norm_num),
    fits64_of_bounds (by norm_num) (by norm_num),
    fits64_of_bounds (by norm_num) (by norm_num),
    fits64_of_bounds (by norm_num) (by norm_num),
    fits64_of_bounds (by norm_num) (by norm_num),
    fits32_of_bounds (by norm_num) (by norm_num),
    fits64_of_bounds (by norm_num) (by norm_num),
    fits64_of_bounds (by norm_num) (by norm_num),
    fits64_of_bounds (by norm_num) (by norm_num),
    fits64_of_bounds (by norm_num) (by norm_num),
    fits32_of_bounds (by norm_num) (by norm_num), hth,
    fits32_of_bounds (by norm_num) (by norm_num),
    fits32_of_bounds (by norm_num) (by norm_num),
    fits32_of_bounds (by norm_num) (by norm_num),
    fits32_of_bounds (by norm_num) (by norm_num)⟩

/-- Witness of `C5_attraction_magnitude_direction`: masses 2 and 3 at `(3,4)`
and `(0,0)`, distance 5. -/
theorem C5_attraction_magnitude_direction_witness :
    ∃ fx fy : ℝ,
      getPlanetAttraction realLibm (pointMass 2 3 4 0 0) (pointMass 3 0 0 0 0)
        = ⟨.fin fx, .fin fy⟩ ∧
      fx = 66743 / 1000000000000000 * 2 * 3 / (5 * 5) * ((0 - 3) / 5) ∧
      fy = 66743 / 1000000000000000 * 2 * 3 / (5 * 5) * ((0 - 4) / 5) ∧
      ((0 - 3) / 5 : ℝ) * ((0 - 3) / 5) + ((0 - 4) / 5) * ((0 - 4) / 5) = 1 ∧
      fx * fx + fy * fy =
        (66743 / 1000000000000000 * 2 * 3 / (5 * 5)) *
          (66743 / 1000000000000000 * 2 * 3 / (5 * 5)) ∧
      (0 : ℝ) < 66743 / 1000000000000000 * 2 * 3 / (5 * 5) :=
  C5_attraction_magnitude_direction realLibm_exact _ _ rfl rfl rfl rfl (by norm_num)
    (by norm_num) (Or.inl (by norm_num)) (by norm_num) (by norm_num)
    attractionFits_three_four_five

end ForceAmended

/-! ## The physics step -/

section Step

variable {α : Type} [LinearOrderedField α]

theorem physicsLoop_length (M : Libm α) (dt : FVal α) :
    ∀ (n i : Nat) (ps : List (Planet α)), (physicsLoop M dt n i ps).length = ps.length := by
  intro n
  induction n with
  | zero => intro i ps; rfl
  | succ n ih =>
    intro i ps
    unfold physicsLoop
    cases h : ps[i]? with
    | none => rfl
    | some p => simp [ih]

theorem take_eq_take_of_getElem? {β : Type} (l1 l2 : List β) (i : Nat)
    (h : ∀ k, k < i → l1[k]? = l2[k]?) : l1.take i = l2.take i := by
  apply List.ext_getElem?
  intro k
  by_cases hk : k < i
  · rw [List.getElem?_take_of_lt hk, List.getElem?_take_of_lt hk]
    exact h k hk
  · rw [List.getElem?_take, List.getElem?_take]
    simp [hk]

/-- The sweep, entry by entry: the entries `i ≤ k < i + n` are advanced, each
from the list holding the already advanced entries before `k` and the old
entries from `k` on; all other entries are untouched. -/
theorem physicsLoop_getElem? (M : Libm α) (dt : FVal α) :
    ∀ (n i : Nat) (ps : List (Planet α)), i + n ≤ ps.length → ∀ k : Nat,
      (physicsLoop M dt n i ps)[k]? =
        if i ≤ k ∧ k < i + n then
          (ps[k]?).map (updatePlanet M dt ((physicsLoop M dt n i ps).take k ++ ps.drop k) k)
        else ps[k]? := by
  intro n
  induction n with
  | zero =>
    intro i ps _ k
    have : ¬ (i ≤ k ∧ k < i + 0) := by omega
    rw [if_neg this]
    rfl
  | succ n ih =>
    intro i ps hlen k
    have hi : i < ps.length := by omega
    have hget : ps[i]? = some ps[i] := List.getElem?_eq_getElem hi
    have hunf : physicsLoop M dt (n + 1) i ps =
        physicsLoop M dt n (i + 1) (ps.set i (updatePlanet M dt ps i ps[i])) := by
      rw [physicsLoop, hget]
    have hlen2 : i + 1 + n ≤ (ps.set i (updatePlanet M dt ps i ps[i])).length := by
      rw [List.length_set]
      omega
    have ih2 := ih (i + 1) (ps.set i (updatePlanet M dt ps i ps[i])) hlen2
    rw [hunf]
    rcases Nat.lt_trichotomy k i with hk | hk | hk
    · have h1 : ¬ (i ≤ k ∧ k < i + (n + 1)) := by omega
      have h2 : ¬ (i + 1 ≤ k ∧ k < i + 1 + n) := by omega
      rw [ih2 k, if_neg h1, if_neg h2, List.getElem?_set_ne (by omega)]
    · subst hk
      have h1 : k ≤ k ∧ k < k + (n + 1) := by omega
      have h2 : ¬ (k + 1 ≤ k ∧ k < k + 1 + n) := by omega
      rw [ih2 k, if_pos h1, if_neg h2, List.getElem?_set_self hi, hget]
      have htake : (physicsLoop M dt n (k + 1) (ps.set k (updatePlanet M dt ps k ps[k]))).take k
          = ps.take k := by
        apply take_eq_take_of_getElem?
        intro j hj
        have h3 : ¬ (k + 1 ≤ j ∧ j < k + 1 + n) := by omega
        rw [ih2 j, if_neg h3, List.getElem?_set_ne (by omega)]
      rw [htake, List.take_append_drop]
      rfl
    · have h1 : i ≤ k ∧ k < i + (n + 1) ↔ i + 1 ≤ k ∧ k < i + 1 + n := by omega
      rw [ih2 k, List.getElem?_set_ne (by omega), List.drop_set_of_lt _ _ hk]
      simp only [h1]

/-- The sweep leaves the lengths alone and advances entry `k` from the list
holding the advanced entries before `k` and the old entries from `k` on. -/
theorem physicsStep_getElem? (M : Libm α) (dt : FVal α) (ps : List (Planet α)) (k : Nat) :
    (physicsStep M dt ps)[k]? =
      (ps[k]?).map (updatePlanet M dt ((physicsStep M dt ps).take k ++ ps.drop k) k) := by
  unfold physicsStep
  rw [physicsLoop_getElem? M dt ps.length 0 ps (by omega) k]
  by_cases hk : k < ps.length
  · have : 0 ≤ k ∧ k < 0 + ps.length := by omega
    rw [if_pos this]
  · have : ¬ (0 ≤ k ∧ k < 0 + ps.length) := by omega
    rw [if_neg this, List.getElem?_eq_none (by omega)]
    rfl


theorem physicsStep_pair (M : Libm α) (dt : FVal α) (a b : Planet α) :
    physicsStep M dt [a, b] =
      [updatePlanet M dt [a, b] 0 a, updatePlanet M dt [updatePlanet M dt [a, b] 0 a, b] 1 b] := by
  simp [physicsStep, physicsLoop]

theorem twoPhaseStep_getElem? (M : Libm α) (dt : FVal α) (ps : List (Planet α)) (k : Nat) :
    (twoPhaseStep M dt ps)[k]? = (ps[k]?).map (updatePlanet M dt ps k) := by
  unfold twoPhaseStep
  rw [List.getElem?_map, List.getElem?_enum]
  cases ps[k]? <;> rfl


theorem fits32_zero {x : ℝ} (h : x = 0) : FVal.Fits binary32 x := by
  rw [h]
  exact FVal.fits_zero _ binary32_overflow_pos

theorem fits64_zero {x : ℝ} (h : x = 0) : FVal.Fits binary64 x := by
  rw [h]
  exact FVal.fits_zero _ binary64_overflow_pos

theorem realLibm_atan2_axis_pos {y x : ℝ} (hy : y = 0) (hx : 0 ≤ x) : realLibm.atan2 y x = 0 := by
  rw [hy]
  exact realLibm_atan2_zero_pos hx

theorem realLibm_atan2_axis_neg {y x : ℝ} (hy : y = 0) (hx : x < 0) :
    realLibm.atan2 y x = Real.pi := by
  rw [hy]
  exact realLibm_atan2_zero_neg hx

theorem add32_zero_zero : FVal.add binary32 (.fin (0 : ℝ)) (.fin 0) = .fin 0 := by
  rw [FVal.add_fin _ (fits32_zero (by norm_num)), add_zero]

theorem mul32_zero_left (b : ℝ) : FVal.mul binary32 (.fin (0 : ℝ)) (.fin b) = .fin 0 := by
  rw [FVal.mul_fin _ (fits32_zero (by norm_num)), zero_mul]

theorem div32_zero_left {b : ℝ} (hb : b ≠ 0) :
    FVal.div binary32 (.fin (0 : ℝ)) (.fin b) = .fin 0 := by
  rw [FVal.div_fin _ hb (fits32_zero (by norm_num)), zero_div]

/-! ### Two bodies of mass `10^10` at rest, at `(0,0)` and `(1,0)`, with time step 1 -/

theorem restPair_fits_first : AttractionFits realLibm 10000000000 10000000000 0 0 1 0 1 := by
  have hth : FVal.Fits binary32 (realLibm.atan2 (0 - 0) (0 - 1)) := by
    rw [realLibm_atan2_axis_neg (by norm_num) (by norm_num)]
    exact fits_binary32_pi
  exact ⟨fits32_of_neg_bounds (by norm_num) (by norm_num), fits32_zero (by norm_num),
    fits64_of_bounds (by norm_num) (by norm_num), fits64_zero (by norm_num),
    fits64_of_bounds (by norm_num) (by norm_num),
    fits64_of_bounds (by norm_num) (by norm_num),
    fits32_of_bounds (by norm_num) (by norm_num),
    fits64_of_bounds (by norm_num) (by norm_num),
    fits64_of_bounds (by norm_num) (by norm_num),
    fits64_of_bounds (by norm_num) (by norm_num),
    fits64_of_bounds (by norm_num) (by norm_num),
    fits32_of_bounds (by norm_num) (by norm_num), hth,
    fits32_of_neg_bounds (by norm_num) (by norm_num), fits32_zero (by norm_num),
    fits32_of_neg_bounds (by norm_num) (by norm_num), fits32_zero (by norm_num)⟩

theorem restPair_force_first :
    getPlanetAttraction realLibm (pointMass 10000000000 0 0 0 0)
        (pointMass 10000000000 1 0 0 0) =
      ⟨.fin (66743 / 1000000000000000 * 10000000000 * 10000000000 / (1 * 1) * ((1 - 0) / 1)),
       .fin (66743 / 1000000000000000 * 10000000000 * 10000000000 / (1 * 1) * ((0 - 0) / 1))⟩ :=
  getPlanetAttraction_of_dist realLibm_exact _ _ rfl rfl rfl rfl (by norm_num) (by norm_num)
    restPair_fits_first

theorem restPair_first :
    updatePlanet realLibm (.fin 1)
        [pointMass 10000000000 0 0 0 0, pointMass 10000000000 1 0 0 0] 0
        (pointMass 10000000000 0 0 0 0) =
      pointMass 10000000000 (66743 / 100000) 0 (66743 / 100000) 0 := by
  have h := restPair_force_first
  simp only [updatePlanet, accumulateForces, pointMass, initPlanet] at h ⊢
  simp (disch := first
      | (apply fits32_of_bounds <;> norm_num; done)
      | (apply fits32_zero; norm_num)
      | norm_num) [h, add32_zero_zero, mul32_zero_left, div32_zero_left, FVal.add_fin,
        FVal.mul_fin, FVal.div_fin]
  norm_num

theorem restPair_fits_second :
    AttractionFits realLibm 10000000000 10000000000 1 0 (66743 / 100000) 0 (33257 / 100000) := by
  have hth : FVal.Fits binary32 (realLibm.atan2 (0 - 0) (1 - 66743 / 100000)) := by
    rw [realLibm_atan2_axis_pos (by norm_num) (by norm_num)]
    exact fits32_zero rfl
  exact ⟨fits32_of_bounds (by norm_num) (by norm_num), fits32_zero (by norm_num),
    fits64_of_bounds (by norm_num) (by norm_num), fits64_zero (by norm_num),
    fits64_of_bounds (by norm_num) (by norm_num),
    fits64_of_bounds (by norm_num) (by norm_num),
    fits32_of_bounds (by norm_num) (by norm_num),
    fits64_of_bounds (by norm_num) (by norm_num),
    fits64_of_bounds (by norm_num) (by norm_num),
    fits64_of_bounds (by norm_num) (by norm_num),
    fits64_of_bounds (by norm_num) (by norm_num),
    fits32_of_bounds (by norm_num) (by norm_num), hth,
    fits32_of_bounds (by norm_num) (by norm_num), fits32_zero (by norm_num),
    fits32_of_bounds (by norm_num) (by norm_num), fits32_zero (by norm_num)⟩

theorem restPair_force_second :
    getPlanetAttraction realLibm (pointMass 10000000000 1 0 0 0)
        (pointMass 10000000000 (66743 / 100000) 0 (66743 / 100000) 0) =
      ⟨.fin (66743 / 1000000000000000 * 10000000000 * 10000000000 /
              (33257 / 100000 * (33257 / 100000)) * ((66743 / 100000 - 1) / (33257 / 100000))),
       .fin (66743 / 1000000000000000 * 10000000000 * 10000000000 /
              (33257 / 100000 * (33257 / 100000)) * ((0 - 0) / (33257 / 100000)))⟩ :=
  getPlanetAttraction_of_dist realLibm_exact _ _ rfl rfl rfl rfl (by norm_num) (by norm_num)
    restPair_fits_second

theorem restPair_second_inPlace :
    updatePlanet realLibm (.fin 1)
        [pointMass 10000000000 (66743 / 100000) 0 (66743 / 100000) 0,
          pointMass 10000000000 1 0 0 0] 1 (pointMass 10000000000 1 0 0 0) =
      pointMass 10000000000 (1 - 6674300000 / 1106028049) 0 (-(6674300000 / 1106028049)) 0 := by
  have h := restPair_force_second
  simp only [updatePlanet, accumulateForces, pointMass, initPlanet] at h ⊢
  simp (disch := first
      | (apply fits32_of_bounds <;> norm_num; done)
      | (apply fits32_of_neg_bounds <;> norm_num; done)
      | (apply fits32_zero; norm_num)
      | norm_num) [h, add32_zero_zero, mul32_zero_left, div32_zero_left, FVal.add_fin,
        FVal.mul_fin, FVal.div_fin]
  norm_num

theorem restPair_fits_twoPhase :
    AttractionFits realLibm 10000000000 10000000000 1 0 0 0 1 := by
  have hth : FVal.Fits binary32 (realLibm.atan2 (0 - 0) (1 - 0)) := by
    rw [realLibm_atan2_axis_pos (by norm_num) (by norm_num)]
    exact fits32_zero rfl
  exact ⟨fits32_of_bounds (by norm_num) (by norm_num), fits32_zero (by norm_num),
    fits64_of_bounds (by norm_num) (by norm_num), fits64_zero (by norm_num),
    fits64_of_bounds (by norm_num) (by norm_num),
    fits64_of_bounds (by norm_num) (by norm_num),
    fits32_of_bounds (by norm_num) (by norm_num),
    fits64_of_bounds (by norm_num) (by norm_num),
    fits64_of_bounds (by norm_num) (by norm_num),
    fits64_of_bounds (by norm_num) (by norm_num),
    fits64_of_bounds (by norm_num) (by norm_num),
    fits32_of_bounds (by norm_num) (by norm_num), hth,
    fits32_of_bounds (by norm_num) (by norm_num), fits32_zero (by norm_num),
    fits32_of_bounds (by norm_num) (by norm_num), fits32_zero (by norm_num)⟩

theorem restPair_second_twoPhase :
    updatePlanet realLibm (.fin 1)
        [pointMass 10000000000 0 0 0 0, pointMass 10000000000 1 0 0 0] 1
        (pointMass 10000000000 1 0 0 0) =
      pointMass 10000000000 (1 - 66743 / 100000) 0 (-(66743 / 100000)) 0 := by
  have h := getPlanetAttraction_of_dist realLibm_exact (pointMass 10000000000 1 0 0 0)
    (pointMass 10000000000 0 0 0 0) rfl rfl rfl rfl (by norm_num) (by norm_num)
    restPair_fits_twoPhase
  simp only [updatePlanet, accumulateForces, pointMass, initPlanet] at h ⊢
  simp (disch := first
      | (apply fits32_of_bounds <;> norm_num; done)
      | (apply fits32_of_neg_bounds <;> norm_num; done)
      | (apply fits32_zero; norm_num)
      | norm_num) [h, add32_zero_zero, mul32_zero_left, div32_zero_left, FVal.add_fin,
        FVal.mul_fin, FVal.div_fin]
  norm_num

theorem restPair_step :
    physicsStep realLibm (.fin 1)
        [pointMass 10000000000 0 0 0 0, pointMass 10000000000 1 0 0 0] =
      [pointMass 10000000000 (66743 / 100000) 0 (66743 / 100000) 0,
        pointMass 10000000000 (1 - 6674300000 / 1106028049) 0 (-(6674300000 / 1106028049)) 0] := by
  rw [physicsStep_pair, restPair_first, restPair_second_inPlace]

theorem restPair_twoPhaseStep :
    twoPhaseStep realLibm (.fin 1)
        [pointMass 10000000000 0 0 0 0, pointMass 10000000000 1 0 0 0] =
      [pointMass 10000000000 (66743 / 100000) 0 (66743 / 100000) 0,
        pointMass 10000000000 (1 - 66743 / 100000) 0 (-(66743 / 100000)) 0] := by
  simp only [twoPhaseStep, List.enum, List.enumFrom, List.map, Nat.zero_add, restPair_first,
    restPair_second_twoPhase]

/-- Claim C1, evaluated at the failing input: for two bodies of mass `10^10` at
rest at `(0,0)` and `(1,0)` and time step 1, the step of the program pulls the
second body toward the already advanced first body and gives it the velocity
`-6674300000/1106028049`, whereas the two-phase step gives it `-66743/100000`. -/
theorem C1_counterexample :
    physicsStep realLibm (.fin 1)
        [pointMass 10000000000 0 0 0 0, pointMass 10000000000 1 0 0 0] =
      [pointMass 10000000000 (66743 / 100000) 0 (66743 / 100000) 0,
        pointMass 10000000000 (1 - 6674300000 / 1106028049) 0
          (-(6674300000 / 1106028049)) 0] ∧
    twoPhaseStep realLibm (.fin 1)
        [pointMass 10000000000 0 0 0 0, pointMass 10000000000 1 0 0 0] =
      [pointMass 10000000000 (66743 / 100000) 0 (66743 / 100000) 0,
        pointMass 10000000000 (1 - 66743 / 100000) 0 (-(66743 / 100000)) 0] ∧
    physicsStep realLibm (.fin 1)
        [pointMass 10000000000 0 0 0 0, pointMass 10000000000 1 0 0 0] ≠
      twoPhaseStep realLibm (.fin 1)
        [pointMass 10000000000 0 0 0 0, pointMass 10000000000 1 0 0 0] := by
  refine ⟨restPair_step, restPair_twoPhaseStep, ?_⟩
  rw [restPair_step, restPair_twoPhaseStep]
  intro h
  have h1 := congrArg (fun l => (l[1]?).map (fun p => p.vel.x)) h
  simp [pointMass, initPlanet] at h1
  norm_num at h1

/-- The sweep keeps the number of bodies and advances body `k` from the list
in which the bodies before `k` are already advanced; the two-phase step
advances every body from the start-of-step list; the two agree on body 0. -/
theorem physicsStep_is_in_place_sweep (M : Libm α) (dt : FVal α) (ps : List (Planet α)) :
    (physicsStep M dt ps).length = ps.length ∧
    (∀ k : Nat, (physicsStep M dt ps)[k]? =
      (ps[k]?).map (updatePlanet M dt ((physicsStep M dt ps).take k ++ ps.drop k) k)) ∧
    (∀ k : Nat, (twoPhaseStep M dt ps)[k]? = (ps[k]?).map (updatePlanet M dt ps k)) ∧
    (physicsStep M dt ps)[0]? = (twoPhaseStep M dt ps)[0]? := by
  refine ⟨physicsLoop_length M dt _ _ _, physicsStep_getElem? M dt ps,
    twoPhaseStep_getElem? M dt ps, ?_⟩
  rw [physicsStep_getElem?, twoPhaseStep_getElem?]
  simp

/-- Claim C3, evaluated at the failing input: for two bodies of mass `10^10`
at rest at `(0,0)` and `(1,0)` and time step 1, the centre-of-mass velocity is
`(0, 0)` before the step and not `(0, 0)` after it. -/
theorem C3_counterexample :
    comVelocity [pointMass (10000000000 : ℝ) 0 0 0 0, pointMass 10000000000 1 0 0 0] =
      some ⟨.fin 0, .fin 0⟩ ∧
    comVelocity (physicsStep realLibm (.fin 1)
        [pointMass 10000000000 0 0 0 0, pointMass 10000000000 1 0 0 0]) =
      some ⟨.fin ((66743 / 100000 - 6674300000 / 1106028049) / 2), .fin 0⟩ ∧
    comVelocity (physicsStep realLibm (.fin 1)
        [pointMass 10000000000 0 0 0 0, pointMass 10000000000 1 0 0 0]) ≠
      comVelocity [pointMass (10000000000 : ℝ) 0 0 0 0, pointMass 10000000000 1 0 0 0] := by
  have h0 : comVelocity [pointMass (10000000000 : ℝ) 0 0 0 0, pointMass 10000000000 1 0 0 0] =
      some ⟨.fin 0, .fin 0⟩ := by
    simp only [comVelocity, pointMass, initPlanet]
    simp (disch := first
      | (apply fits32_of_bounds <;> norm_num; done)
      | (apply fits32_of_neg_bounds <;> norm_num; done)
      | (apply fits32_zero; norm_num)
      | norm_num) [add32_zero_zero, mul32_zero_left, div32_zero_left, FVal.add_fin,
        FVal.mul_fin, FVal.div_fin]
  have h1 : comVelocity (physicsStep realLibm (.fin 1)
        [pointMass 10000000000 0 0 0 0, pointMass 10000000000 1 0 0 0]) =
      some ⟨.fin ((66743 / 100000 - 6674300000 / 1106028049) / 2), .fin 0⟩ := by
    rw [restPair_step]
    simp only [comVelocity, pointMass, initPlanet]
    simp (disch := first
      | (apply fits32_of_bounds <;> norm_num; done)
      | (apply fits32_of_neg_bounds <;> norm_num; done)
      | (apply fits32_zero; norm_num)
      | norm_num) [add32_zero_zero, mul32_zero_left, div32_zero_left, FVal.add_fin,
        FVal.mul_fin, FVal.div_fin]
    norm_num
  refine ⟨h0, h1, ?_⟩
  rw [h0, h1]
  intro h
  simp at h
  norm_num at h

end Step

/-! ## The batch renderer -/

section Trail

variable {α : Type}


theorem drawTrail_vertices (b : BatchGroup α) (pos : OglsVec2 α) (color : OglsVec3 α) :
    (drawTrail b pos color).vertices =
      (if b.vertices.length ≥ s_MaxTrailVertices then b.vertices.tail else b.vertices) ++
        [⟨pos, color⟩] := rfl

theorem drawTrail_foldl_vertices (pts : List (OglsVec2 α × OglsVec3 α)) :
    (pts.foldl (fun b pc => drawTrail b pc.1 pc.2) ⟨[], []⟩).vertices =
      (pts.map fun pc => (⟨pc.1, pc.2⟩ : Vertex α)).drop (pts.length - s_MaxTrailVertices) := by
  induction pts using List.reverseRecOn with
  | nil => simp
  | append_singleton xs x ih =>
    rw [List.foldl_append]
    show (drawTrail (xs.foldl (fun b pc => drawTrail b pc.1 pc.2) ⟨[], []⟩) x.1 x.2).vertices = _
    rw [drawTrail_vertices, ih, List.length_drop, List.length_map, List.length_append,
      List.length_singleton, List.map_append, List.map_cons, List.map_nil]
    by_cases h : xs.length ≥ s_MaxTrailVertices
    · have h1 : xs.length - (xs.length - s_MaxTrailVertices) ≥ s_MaxTrailVertices := by
        unfold s_MaxTrailVertices at h ⊢
        omega
      rw [if_pos h1, List.tail_drop]
      have h2 : xs.length - s_MaxTrailVertices + 1 = xs.length + 1 - s_MaxTrailVertices := by
        unfold s_MaxTrailVertices at h ⊢
        omega
      rw [h2, List.drop_append_of_le_length]
      rw [List.length_map]
      unfold s_MaxTrailVertices
      omega
    · have h1 : ¬ (xs.length - (xs.length - s_MaxTrailVertices) ≥ s_MaxTrailVertices) := by
        unfold s_MaxTrailVertices at h ⊢
        omega
      have h2 : xs.length - s_MaxTrailVertices = 0 := by
        unfold s_MaxTrailVertices at h ⊢
        omega
      have h3 : xs.length + 1 - s_MaxTrailVertices = 0 := by
        unfold s_MaxTrailVertices at h ⊢
        omega
      rw [if_neg h1, h2, h3]
      rfl

/-- Claim C7: after appending the points `pts` with `drawTrail` to an empty
trail buffer, the buffer holds the last `min n 65535` of them, oldest first. -/
theorem C7_trail_keeps_latest (pts : List (OglsVec2 α × OglsVec3 α)) :
    (pts.foldl (fun b pc => drawTrail b pc.1 pc.2) ⟨[], []⟩).vertices =
      (pts.map fun pc => (⟨pc.1, pc.2⟩ : Vertex α)).drop (pts.length - 65535) ∧
    (pts.foldl (fun b pc => drawTrail b pc.1 pc.2) ⟨[], []⟩).vertices.length =
      min pts.length 65535 := by
  have h := drawTrail_foldl_vertices pts
  refine ⟨h, ?_⟩
  rw [h, List.length_drop, List.length_map]
  unfold s_MaxTrailVertices
  omega

end Trail

section Poly

variable {α : Type} [LinearOrderedField α]


/-- The loop of `drawPoly` appends one perimeter vertex and three indices per
iteration. -/
theorem drawPoly_foldl (M : Libm α) (pos : OglsVec2 α) (color : OglsVec3 α)
    (radius angle : FVal α) (b : BatchGroup α) (n : Nat) :
    (List.range n).foldl (drawPolyIter M pos color radius angle) b =
      { vertices := b.vertices ++ (List.range n).map fun (i : Nat) =>
          (⟨⟨FVal.add binary32 pos.x (FVal.mul binary32 radius
              (M.fcos binary32 (FVal.mul binary32 (.fin (i : α))
                angle))),
             FVal.add binary32 pos.y (FVal.mul binary32 radius
                 (M.fsin binary32 (FVal.mul binary32 (.fin (i : α))
                   angle)))⟩, color⟩ : Vertex α)
        indices := b.indices ++
          (List.range n).flatMap fun i => [0, (i + 1) % 2 ^ 32, (i + 2) % 2 ^ 32] } := by
  induction n with
  | zero => simp
  | succ n ih =>
    rw [List.range_succ, List.foldl_append, ih]
    simp [drawPolyIter]

theorem fan_indices_no_wrap (n : Nat) (hn : n + 1 < 2 ^ 32) :
    ((List.range n).flatMap fun i => [0, (i + 1) % 2 ^ 32, (i + 2) % 2 ^ 32]) =
      (List.range n).flatMap fun i => [0, i + 1, i + 2] := by
  induction n with
  | zero => rfl
  | succ n ih =>
    rw [List.range_succ, List.flatMap_append, List.flatMap_append, ih (by omega)]
    simp only [List.flatMap_singleton]
    rw [Nat.mod_eq_of_lt (by omega), Nat.mod_eq_of_lt (by omega)]

theorem fan_indices_length (n : Nat) :
    ((List.range n).flatMap fun i => [0, i + 1, i + 2]).length = 3 * n := by
  induction n with
  | zero => rfl
  | succ n ih =>
    rw [List.range_succ, List.flatMap_append, List.length_append, ih]
    simp only [List.flatMap_singleton, List.length_cons, List.length_nil]
    omega

theorem drawPoly_eq (M : Libm α) (batch : BatchGroup α) (pos : OglsVec2 α) (color : OglsVec3 α)
    (radius : FVal α) (n : Nat) (hn : n + 1 < 2 ^ 32) :
    drawPoly M batch pos color radius (n + 1) =
      some { vertices := ⟨pos, color⟩ :: (List.range (n + 1)).map fun (i : Nat) =>
               (⟨⟨FVal.add binary32 pos.x (FVal.mul binary32 radius
                   (M.fcos binary32 (FVal.mul binary32 (.fin (i : α))
                     (FVal.div binary32 (FVal.mul binary32 (.fin 2) PI) (.fin ((n + 1 : Nat) : α)))))),
                  FVal.add binary32 pos.y (FVal.mul binary32 radius
                      (M.fsin binary32 (FVal.mul binary32 (.fin (i : α))
                        (FVal.div binary32 (FVal.mul binary32 (.fin 2) PI) (.fin ((n + 1 : Nat) : α))))))⟩,
                 color⟩ : Vertex α)
             indices := ((List.range n).flatMap fun i => [0, i + 1, i + 2]) ++ [0, n + 1, 1] } := by
  have h1 : ((List.range (n + 1)).flatMap fun i => [0, (i + 1) % 2 ^ 32, (i + 2) % 2 ^ 32]) =
      ((List.range n).flatMap fun i => [0, i + 1, i + 2]) ++ [0, n + 1, (n + 2) % 2 ^ 32] := by
    rw [List.range_succ, List.flatMap_append, fan_indices_no_wrap n (by omega)]
    simp only [List.flatMap_singleton]
    rw [Nat.mod_eq_of_lt (by omega)]
  have h2 : (((List.range (n + 1)).flatMap fun i => [0, (i + 1) % 2 ^ 32, (i + 2) % 2 ^ 32]))[1]?
      = some 1 := by
    rw [List.range_succ_eq_map]
    simp
  unfold drawPoly
  simp only [drawPoly_foldl, List.nil_append, h2]
  rw [h1, List.dropLast_append_cons]
  simp only [List.dropLast, List.append_assoc, List.cons_append, List.nil_append,
    List.singleton_append]


/-- Claim C8: for `1 ≤ N` (a `uint32_t`) and any prior batch, `drawPoly` builds
`N + 1` vertices, the first being the centre and the others the `N` perimeter
vertices, and `3 * N` indices: the triangles `(0, i+1, i+2)` for `i < N - 1`,
then `(0, N, 1)`; every index is smaller than the number of vertices. -/
theorem C8_drawPoly_triangle_fan (M : Libm α) (batch : BatchGroup α) (pos : OglsVec2 α)
    (color : OglsVec3 α) (radius : FVal α) (N : Nat) (hN : 1 ≤ N) (h32 : N < 2 ^ 32) :
    ∃ b : BatchGroup α,
      drawPoly M batch pos color radius N = some b ∧
      b.vertices.length = N + 1 ∧
      b.vertices[0]? = some ⟨pos, color⟩ ∧
      b.vertices.tail = (List.range N).map (fun (i : Nat) =>
        (⟨⟨FVal.add binary32 pos.x (FVal.mul binary32 radius
            (M.fcos binary32 (FVal.mul binary32 (.fin (i : α))
              (FVal.div binary32 (FVal.mul binary32 (.fin 2) PI) (.fin (N : α)))))),
           FVal.add binary32 pos.y (FVal.mul binary32 radius
               (M.fsin binary32 (FVal.mul binary32 (.fin (i : α))
                 (FVal.div binary32 (FVal.mul binary32 (.fin 2) PI) (.fin (N : α))))))⟩,
          color⟩ : Vertex α)) ∧
      b.indices.length = 3 * N ∧
      b.indices = ((List.range (N - 1)).flatMap fun i => [0, i + 1, i + 2]) ++ [0, N, 1] ∧
      ∀ idx ∈ b.indices, idx < b.vertices.length := by
  obtain ⟨n, rfl⟩ : ∃ n, N = n + 1 := ⟨N - 1, by omega⟩
  refine ⟨_, drawPoly_eq M batch pos color radius n h32, ?_, ?_, rfl, ?_, ?_, ?_⟩
  · simp
  · simp
  · rw [List.length_append, fan_indices_length]
    simp only [List.length_cons, List.length_nil]
    omega
  · rfl
  · intro idx hidx
    simp only [List.length_cons, List.length_map, List.length_range]
    rw [List.mem_append, List.mem_flatMap] at hidx
    rcases hidx with ⟨i, hi, hmem⟩ | hmem
    · rw [List.mem_range] at hi
      simp only [List.mem_cons, List.mem_singleton, List.not_mem_nil, or_false] at hmem
      omega
    · simp only [List.mem_cons, List.mem_singleton, List.not_mem_nil, or_false] at hmem
      omega

/-- Witness of `C8_drawPoly_triangle_fan`: the 32-gon drawn by `main`. -/
theorem C8_drawPoly_triangle_fan_witness :
    ∃ b : BatchGroup ℝ,
      drawPoly realLibm ⟨[], []⟩ ⟨.fin 0, .fin 0⟩ ⟨.fin 1, .fin 1, .fin 1⟩ (.fin 1) 32 = some b ∧
      b.vertices.length = 32 + 1 ∧
      b.vertices[0]? = some ⟨⟨.fin 0, .fin 0⟩, ⟨.fin 1, .fin 1, .fin 1⟩⟩ ∧
      b.vertices.tail = (List.range 32).map (fun (i : Nat) =>
        (⟨⟨FVal.add binary32 (.fin 0) (FVal.mul binary32 (.fin 1)
            (realLibm.fcos binary32 (FVal.mul binary32 (.fin (i : ℝ))
              (FVal.div binary32 (FVal.mul binary32 (.fin 2) PI) (.fin ((32 : Nat) : ℝ)))))),
           FVal.add binary32 (.fin 0) (FVal.mul binary32 (.fin 1)
               (realLibm.fsin binary32 (FVal.mul binary32 (.fin (i : ℝ))
                 (FVal.div binary32 (FVal.mul binary32 (.fin 2) PI) (.fin ((32 : Nat) : ℝ))))))⟩,
          ⟨.fin 1, .fin 1, .fin 1⟩⟩ : Vertex ℝ)) ∧
      b.indices.length = 3 * 32 ∧
      b.indices = ((List.range (32 - 1)).flatMap fun i => [0, i + 1, i + 2]) ++ [0, 32, 1] ∧
      ∀ idx ∈ b.indices, idx < b.vertices.length :=
  C8_drawPoly_triangle_fan realLibm _ _ _ _ 32 (by norm_num) (by norm_num)

theorem sin_22_7_neg : Real.sin (22 / 7) < -(1 / 2000) := by
  have hlo : (0 : ℝ) < 22 / 7 - Real.pi := by
    have := Real.pi_lt_d4
    norm_num at this
    linarith
  have hd : (1 / 800 : ℝ) < 22 / 7 - Real.pi := by
    have := Real.pi_lt_d4
    norm_num at this ⊢
    linarith
  have hhi : 22 / 7 - Real.pi ≤ 1 := by
    have := Real.pi_gt_three
    linarith
  have h1 := Real.sin_gt_sub_cube hlo hhi
  have h2 : Real.sin (22 / 7 - Real.pi) = -Real.sin (22 / 7) := by
    rw [Real.sin_sub_pi]
  rw [h2] at h1
  have h3 : (22 / 7 - Real.pi) ^ 3 / 4 ≤ (22 / 7 - Real.pi) / 4 := by
    have h4 : (22 / 7 - Real.pi) ^ 3 ≤ (22 / 7 - Real.pi) := by
      have h5 : (22 / 7 - Real.pi) ^ 3 ≤ (22 / 7 - Real.pi) ^ 1 :=
        pow_le_pow_of_le_one hlo.le hhi (by norm_num)
      simpa using h5
    linarith
  linarith

theorem cos_22_7_neg : Real.cos (22 / 7) < -(1 / 2) := by
  have h1 := Real.one_sub_sq_div_two_le_cos (x := 22 / 7 - Real.pi)
  rw [Real.cos_sub_pi] at h1
  have hlo : (0 : ℝ) ≤ 22 / 7 - Real.pi := by
    have := Real.pi_lt_d4
    norm_num at this
    linarith
  have hhi : 22 / 7 - Real.pi ≤ 1 / 2 := by
    have := Real.pi_gt_three
    linarith
  have h2 : (22 / 7 - Real.pi) ^ 2 ≤ 1 / 4 := by nlinarith
  linarith

theorem fits_cos_22_7 : FVal.Fits binary32 (Real.cos (22 / 7)) := by
  apply fits32_of_neg_bounds
  · have := cos_22_7_neg
    have h0 : (1 / 2 ^ 150 : ℝ) < 1 / 2 := by norm_num
    linarith
  · have := Real.neg_one_le_cos (22 / 7)
    have h0 : (-(2 ^ 128 - 2 ^ 103) : ℝ) < -1 := by norm_num
    linarith

theorem fits_sin_22_7 : FVal.Fits binary32 (Real.sin (22 / 7)) := by
  apply fits32_of_neg_bounds
  · have := sin_22_7_neg
    have h0 : (1 / 2 ^ 150 : ℝ) < 1 / 2000 := by norm_num
    linarith
  · have := Real.neg_one_le_sin (22 / 7)
    have h0 : (-(2 ^ 128 - 2 ^ 103) : ℝ) < -1 := by norm_num
    linarith

theorem PI_eq : (PI : FVal ℝ) = .fin (22 / 7) := by
  unfold PI
  exact FVal.div_fin _ (by norm_num) (fits32_of_bounds (by norm_num) (by norm_num))

theorem poly32_angle :
    FVal.div binary32 (FVal.mul binary32 (.fin 2) PI) (.fin ((31 + 1 : Nat) : ℝ)) =
      .fin (2 * (22 / 7) / 32) := by
  have e : (((31 + 1 : Nat) : ℝ)) = 32 := by norm_num
  rw [PI_eq, e, FVal.mul_fin _ (fits32_of_bounds (by norm_num) (by norm_num)),
    FVal.div_fin _ (by norm_num) (fits32_of_bounds (by norm_num) (by norm_num))]

theorem poly32_vertex16 :
    (⟨FVal.add binary32 (.fin 0) (FVal.mul binary32 (.fin 1) (realLibm.fcos binary32
        (FVal.mul binary32 (.fin ((16 : Nat) : ℝ)) (.fin (2 * (22 / 7) / 32))))),
      FVal.add binary32 (.fin 0) (FVal.mul binary32 (.fin 1) (realLibm.fsin binary32
        (FVal.mul binary32 (.fin ((16 : Nat) : ℝ)) (.fin (2 * (22 / 7) / 32)))))⟩ :
        OglsVec2 ℝ) =
      ⟨.fin (0 + 1 * Real.cos (16 * (2 * (22 / 7) / 32))),
       .fin (0 + 1 * Real.sin (16 * (2 * (22 / 7) / 32)))⟩ := by
  have e : (((16 : Nat) : ℝ)) * (2 * (22 / 7) / 32) = 22 / 7 := by norm_num
  have e2 : (16 : ℝ) * (2 * (22 / 7) / 32) = 22 / 7 := by norm_num
  have hm : FVal.mul binary32 (.fin ((16 : Nat) : ℝ)) (.fin (2 * (22 / 7) / 32)) =
      .fin (22 / 7) := by
    rw [FVal.mul_fin _ (by rw [e]; exact fits32_of_bounds (by norm_num) (by norm_num)), e]
  have hc : realLibm.fcos binary32 (.fin (22 / 7)) = .fin (Real.cos (22 / 7)) :=
    FVal.round_fin _ fits_cos_22_7
  have hs : realLibm.fsin binary32 (.fin (22 / 7)) = .fin (Real.sin (22 / 7)) :=
    FVal.round_fin _ fits_sin_22_7
  rw [hm, hc, hs, e2,
    FVal.mul_fin _ (by rw [one_mul]; exact fits_cos_22_7),
    FVal.mul_fin _ (by rw [one_mul]; exact fits_sin_22_7),
    FVal.add_fin _ (by rw [one_mul, zero_add]; exact fits_cos_22_7),
    FVal.add_fin _ (by rw [one_mul, zero_add]; exact fits_sin_22_7)]

/-- Claim C9, evaluated at the failing input: in the 32-gon of radius 1 around
the origin, the perimeter vertex `i = 16` (vertex 17 of the batch) lies at
`(cos (22/7), sin (22/7))`, computed with `PI = 22/7`, and not at angle
`16 * (2π / 32) = π`. -/
theorem C9_vertex_angle_uses_22_over_7 :
    ∃ (b : BatchGroup ℝ) (v : Vertex ℝ),
      drawPoly realLibm ⟨[], []⟩ ⟨.fin 0, .fin 0⟩ ⟨.fin 1, .fin 1, .fin 1⟩ (.fin 1) 32 = some b ∧
      b.vertices[17]? = some v ∧
      v.pos = ⟨.fin (0 + 1 * Real.cos (16 * (2 * (22 / 7) / 32))),
               .fin (0 + 1 * Real.sin (16 * (2 * (22 / 7) / 32)))⟩ ∧
      v.pos ≠ ⟨.fin (0 + 1 * Real.cos (16 * (2 * Real.pi / 32))),
               .fin (0 + 1 * Real.sin (16 * (2 * Real.pi / 32)))⟩ := by
  refine ⟨_, ⟨⟨.fin (0 + 1 * Real.cos (16 * (2 * (22 / 7) / 32))),
      .fin (0 + 1 * Real.sin (16 * (2 * (22 / 7) / 32)))⟩, ⟨.fin 1, .fin 1, .fin 1⟩⟩,
    drawPoly_eq realLibm _ _ _ _ 31 (by norm_num), ?_, rfl, ?_⟩
  · rw [poly32_angle, ← poly32_vertex16]
    simp [List.getElem?_cons_succ, List.getElem?_map, List.getElem?_range]
  · intro h
    have hy := congrArg OglsVec2.y h
    simp only [FVal.fin.injEq] at hy
    have e1 : (16 * (2 * (22 / 7 : ℝ) / 32)) = 22 / 7 := by norm_num
    have e2 : (16 * (2 * Real.pi / 32)) = Real.pi := by ring
    rw [e1, e2, Real.sin_pi] at hy
    have := sin_22_7_neg
    linarith

end Poly

/-! ## The controller -/

section Restart

variable {α : Type} [LinearOrderedField α]


theorem applyAction_planetCopies (M : Libm α) (s s2 : State α) (a : Action α)
    (h : applyAction M s a = some s2) : s2.planetCopies = s.planetCopies := by
  cases a with
  | plutoMass =>
    simp only [applyAction] at h
    cases hp : s.planets[9]? with
    | none => rw [hp] at h; exact Option.noConfusion h
    | some pluto =>
      rw [hp] at h
      cases Option.some.inj h
      rfl
  | _ =>
    cases Option.some.inj h
    rfl

theorem reachable_planetCopies (M : Libm α) (s : State α) (h : Reachable M s) :
    s.planetCopies = initialPlanets := by
  induction h with
  | init => rfl
  | step s s2 a _ hstep ih => rw [applyAction_planetCopies M s s2 a hstep, ih]

/-- Claim C10: in every reachable state the restart action is defined, makes
the body list equal to the startup list, sets the camera offset to `(0, 0)`,
the zoom to 1 and the time step to 86400, and is idempotent. -/
theorem C10_restart_restores_snapshot (M : Libm α) (s : State α) (h : Reachable M s) :
    applyAction M s .restart = some (restart s) ∧
    (restart s).planets = initialPlanets ∧
    (restart s).camx = .fin 0 ∧ (restart s).camy = .fin 0 ∧
    (restart s).scale = .fin 1 ∧ (restart s).timeStep = .fin 86400 ∧
    restart (restart s) = restart s := by
  refine ⟨rfl, reachable_planetCopies M s h, ?_, ?_, ?_, ?_, rfl⟩ <;> simp [restart, lit]

/-- Witness of `C10_restart_restores_snapshot`: the state after one frame. -/
theorem C10_restart_restores_snapshot_witness :
    applyAction realLibm
        (frame realLibm ⟨false, false, false, false, false, false, false⟩ (.fin 1) initialState)
        .restart =
      some (restart
        (frame realLibm ⟨false, false, false, false, false, false, false⟩ (.fin 1) initialState)) ∧
    (restart (frame realLibm ⟨false, false, false, false, false, false, false⟩ (.fin 1)
      initialState)).planets = initialPlanets ∧
    (restart (frame realLibm ⟨false, false, false, false, false, false, false⟩ (.fin 1)
      initialState)).camx = .fin 0 ∧
    (restart (frame realLibm ⟨false, false, false, false, false, false, false⟩ (.fin 1)
      initialState)).camy = .fin 0 ∧
    (restart (frame realLibm ⟨false, false, false, false, false, false, false⟩ (.fin 1)
      initialState)).scale = .fin 1 ∧
    (restart (frame realLibm ⟨false, false, false, false, false, false, false⟩ (.fin 1)
      initialState)).timeStep = .fin 86400 ∧
    restart (restart (frame realLibm ⟨false, false, false, false, false, false, false⟩ (.fin 1)
      initialState)) =
      restart (frame realLibm ⟨false, false, false, false, false, false, false⟩ (.fin 1)
        initialState) :=
  C10_restart_restores_snapshot realLibm _
    (Reachable.step initialState _ (.frame ⟨false, false, false, false, false, false, false⟩ (.fin 1))
      Reachable.init rfl)

end Restart

/-! ## Deleting bodies -/

section Delete

variable {α : Type}


theorem deleteSun_of_no_sun (ps : List (Planet α)) (h : ∀ p ∈ ps, p.sun = false) :
    deleteSun ps = ps := by
  induction ps with
  | nil => rfl
  | cons p ps ih =>
    have hp : p.sun = false := h p (List.mem_cons_self _ _)
    have hps : ∀ q ∈ ps, q.sun = false := fun q hq => h q (List.mem_cons_of_mem _ hq)
    simp [deleteSun, hp, ih hps]

theorem deleteSun_split (l1 : List (Planet α)) (p : Planet α) (l2 : List (Planet α))
    (h1 : ∀ q ∈ l1, q.sun = false) (hp : p.sun = true) :
    deleteSun (l1 ++ p :: l2) = l1 ++ l2 := by
  induction l1 with
  | nil => simp [deleteSun, hp]
  | cons q l1 ih =>
    have hq : q.sun = false := h1 q (List.mem_cons_self _ _)
    have hl : ∀ q ∈ l1, q.sun = false := fun q hq => h1 q (List.mem_cons_of_mem _ hq)
    simp [deleteSun, hq, ih hl]

theorem deleteSun_eq_eraseP (ps : List (Planet α)) :
    deleteSun ps = ps.eraseP fun p => p.sun := by
  induction ps with
  | nil => rfl
  | cons p ps ih =>
    cases hp : p.sun with
    | true => simp [deleteSun, hp]
    | false => simp [deleteSun, hp, ih]

theorem exists_first_sun (ps : List (Planet α)) (h : ∃ p ∈ ps, p.sun = true) :
    ∃ l1 p l2, ps = l1 ++ p :: l2 ∧ (∀ q ∈ l1, q.sun = false) ∧ p.sun = true := by
  induction ps with
  | nil =>
    obtain ⟨p, hp, _⟩ := h
    exact absurd hp (List.not_mem_nil p)
  | cons a ps ih =>
    cases ha : a.sun with
    | true => exact ⟨[], a, ps, rfl, fun q hq => absurd hq (List.not_mem_nil q), ha⟩
    | false =>
      have h2 : ∃ p ∈ ps, p.sun = true := by
        obtain ⟨p, hp, hs⟩ := h
        rcases List.mem_cons.1 hp with rfl | hp
        · rw [ha] at hs
          exact absurd hs (by decide)
        · exact ⟨p, hp, hs⟩
      obtain ⟨l1, p, l2, rfl, hl1, hp⟩ := ih h2
      refine ⟨a :: l1, p, l2, rfl, ?_, hp⟩
      intro q hq
      rcases List.mem_cons.1 hq with rfl | hq
      · exact ha
      · exact hl1 q hq

/-- Claim C11: the "delete the sun" action is a no-op when no body is flagged;
otherwise it removes exactly the first flagged body and keeps all other bodies
in their order; on a list of 3 bodies with exactly one flagged body it leaves 2
bodies, none flagged. -/
theorem C11_deleteSun_removes_first_sun (ps : List (Planet α)) :
    ((∀ p ∈ ps, p.sun = false) → deleteSun ps = ps) ∧
    ((∃ p ∈ ps, p.sun = true) →
      ∃ l1 p l2, ps = l1 ++ p :: l2 ∧ (∀ q ∈ l1, q.sun = false) ∧ p.sun = true ∧
        deleteSun ps = l1 ++ l2) ∧
    (ps.length = 3 → (ps.filter fun p => p.sun).length = 1 →
      (deleteSun ps).length = 2 ∧ ∀ q ∈ deleteSun ps, q.sun = false) := by
  refine ⟨deleteSun_of_no_sun ps, ?_, ?_⟩
  · intro h
    obtain ⟨l1, p, l2, hps, hl1, hp⟩ := exists_first_sun ps h
    exact ⟨l1, p, l2, hps, hl1, hp, by rw [hps]; exact deleteSun_split l1 p l2 hl1 hp⟩
  · intro hlen hone
    have hex : ∃ p ∈ ps, p.sun = true := by
      have hne : (ps.filter fun p => p.sun) ≠ [] := by
        intro h0
        rw [h0] at hone
        simp at hone
      obtain ⟨p, hp⟩ := List.exists_mem_of_ne_nil _ hne
      rw [List.mem_filter] at hp
      exact ⟨p, hp.1, hp.2⟩
    obtain ⟨l1, p, l2, hps, hl1, hp⟩ := exists_first_sun ps hex
    have hdel := deleteSun_split l1 p l2 hl1 hp
    rw [hps] at hlen hone ⊢
    rw [hdel]
    have hf1 : (l1.filter fun p => p.sun) = [] := by
      rw [List.filter_eq_nil_iff]
      intro q hq
      simp [hl1 q hq]
    rw [List.filter_append, hf1, List.nil_append, List.filter_cons_of_pos hp,
      List.length_cons] at hone
    have hf2 : (l2.filter fun p => p.sun) = [] := by
      apply List.eq_nil_of_length_eq_zero
      have h3 := hone
      simp only [Nat.add_left_eq_self] at h3
      exact h3
    rw [List.filter_eq_nil_iff] at hf2
    constructor
    · simp only [List.length_append, List.length_cons] at hlen ⊢
      omega
    · intro q hq
      rcases List.mem_append.1 hq with hq | hq
      · exact hl1 q hq
      · have := hf2 q hq
        simpa using this

/-- Witness of `C11_deleteSun_removes_first_sun`: the first three bodies of the
initial list (the sun, mercury and venus). -/
theorem C11_deleteSun_removes_first_sun_witness :
    (deleteSun ((initialPlanets : List (Planet ℝ)).take 3)).length = 2 ∧
    ∀ q ∈ deleteSun ((initialPlanets : List (Planet ℝ)).take 3), q.sun = false :=
  (C11_deleteSun_removes_first_sun ((initialPlanets : List (Planet ℝ)).take 3)).2.2 rfl rfl


theorem eraseIdx_split {β : Type} (l : List β) (k : Nat) (hk : k < l.length) :
    ∃ l1 q l2, l = l1 ++ q :: l2 ∧ l1.length = k ∧ l.eraseIdx k = l1 ++ l2 := by
  induction l generalizing k with
  | nil => exact absurd hk (Nat.not_lt_zero _)
  | cons a l ih =>
    cases k with
    | zero => exact ⟨[], a, l, rfl, rfl, rfl⟩
    | succ k =>
      obtain ⟨l1, q, l2, h1, h2, h3⟩ := ih k (Nat.lt_of_succ_lt_succ hk)
      refine ⟨a :: l1, q, l2, ?_, ?_, ?_⟩
      · rw [h1]
        rfl
      · rw [List.length_cons, h2]
      · rw [List.eraseIdx_cons_succ, h3]
        rfl

/-- Claim C12: on a list whose bodies after the first are not flagged, the
"delete a random planet" action leaves an empty list and a list holding only
a flagged body unchanged; otherwise it removes exactly one body, which is not
flagged, and keeps all other bodies in their order. -/
theorem C12_deleteRandomPlanet_removes_planet (r : Nat) (ps : List (Planet α)) (hsun : ∀ p ∈ ps.tail, p.sun = false) :
    ((ps = [] ∨ ∃ p, ps = [p] ∧ p.sun = true) → deleteRandomPlanet r ps = ps) ∧
    (¬ (ps = [] ∨ ∃ p, ps = [p] ∧ p.sun = true) →
      ∃ l1 p l2, ps = l1 ++ p :: l2 ∧ p.sun = false ∧ deleteRandomPlanet r ps = l1 ++ l2) := by
  constructor
  · rintro (rfl | ⟨p, rfl, hp⟩)
    · rfl
    · simp [deleteRandomPlanet, hp]
  · intro hnot
    match ps, hsun, hnot with
    | [], _, hnot => exact absurd (Or.inl rfl) hnot
    | [p], _, hnot =>
      have hp : p.sun = false := by
        cases h : p.sun with
        | false => rfl
        | true => exact absurd (Or.inr ⟨p, rfl, h⟩) hnot
      exact ⟨[], p, [], rfl, hp, by simp [deleteRandomPlanet, hp]⟩
    | a :: b :: rest, hsun, _ =>
      have hlt : r % ((a :: b :: rest).length - 1) < (b :: rest).length := by
        simp only [List.length_cons, Nat.add_sub_cancel]
        exact Nat.mod_lt _ (Nat.succ_pos _)
      obtain ⟨l1, q, l2, h1, _, h3⟩ :=
        eraseIdx_split (b :: rest) (r % ((a :: b :: rest).length - 1)) hlt
      have hq : q.sun = false := by
        apply hsun
        show q ∈ b :: rest
        rw [h1]
        exact List.mem_append_right _ (List.mem_cons_self _ _)
      refine ⟨a :: l1, q, l2, ?_, hq, ?_⟩
      · rw [h1]
        rfl
      · show (a :: b :: rest).eraseIdx (1 + r % ((a :: b :: rest).length - 1)) = a :: l1 ++ l2
        rw [Nat.add_comm 1, List.eraseIdx_cons_succ, h3]
        rfl

end Delete

section DeleteReachable

variable {α : Type} [LinearOrderedField α]


theorem accumulateForces_sun (M : Libm α) (i : Nat) :
    ∀ (rest : List (Planet α)) (j : Nat) (planet : Planet α) (sum : OglsVec2 α),
      (accumulateForces M i j rest (planet, sum)).1.sun = planet.sun := by
  intro rest
  induction rest with
  | nil => intro j planet sum; rfl
  | cons pj rest ih =>
    intro j planet sum
    by_cases hij : i = j
    · subst hij
      simp [accumulateForces, ih]
    · by_cases hs : pj.sun
      · simp [accumulateForces, hij, hs, ih]
      · simp [accumulateForces, hij, hs, ih]

theorem updatePlanet_sun (M : Libm α) (dt : FVal α) (L : List (Planet α)) (k : Nat)
    (body : Planet α) : (updatePlanet M dt L k body).sun = body.sun := by
  simp [updatePlanet, accumulateForces_sun]

theorem physicsStep_map_sun (M : Libm α) (dt : FVal α) (ps : List (Planet α)) :
    (physicsStep M dt ps).map (fun p => p.sun) = ps.map fun p => p.sun := by
  apply List.ext_getElem?
  intro k
  rw [List.getElem?_map, List.getElem?_map, physicsStep_getElem?]
  cases ps[k]? with
  | none => rfl
  | some p => simp [updatePlanet_sun]

omit [LinearOrderedField α] in
theorem tail_sun_of_map_sun_eq (ps qs : List (Planet α))
    (h : qs.map (fun p => p.sun) = ps.map fun p => p.sun)
    (hps : ∀ p ∈ ps.tail, p.sun = false) : ∀ q ∈ qs.tail, q.sun = false := by
  intro q hq
  have h1 : q.sun ∈ (qs.map fun p => p.sun).tail := by
    rw [← List.map_tail]
    exact List.mem_map_of_mem _ hq
  rw [h, ← List.map_tail, List.mem_map] at h1
  obtain ⟨p, hp, hpq⟩ := h1
  rw [← hpq]
  exact hps p hp

theorem initialPlanets_sun_only_first : ∀ p ∈ (initialPlanets : List (Planet α)).tail,
    p.sun = false := by
  intro p hp
  simp only [initialPlanets, List.tail_cons, List.mem_cons, List.mem_singleton,
    List.not_mem_nil, or_false] at hp
  rcases hp with h | h | h | h | h | h | h | h | h <;> rw [h] <;> rfl

omit [LinearOrderedField α] in
theorem deleteSun_sun_only_first (ps : List (Planet α)) (hps : ∀ p ∈ ps.tail, p.sun = false) :
    ∀ q ∈ (deleteSun ps).tail, q.sun = false := by
  cases ps with
  | nil => exact hps
  | cons a tl =>
    have htl : ∀ p ∈ tl, p.sun = false := hps
    cases ha : a.sun with
    | true =>
      intro q hq
      have : deleteSun (a :: tl) = tl := by simp [deleteSun, ha]
      rw [this] at hq
      exact htl q (List.mem_of_mem_tail hq)
    | false =>
      have : deleteSun (a :: tl) = a :: tl := by
        simp [deleteSun, ha, deleteSun_of_no_sun tl htl]
      rw [this]
      exact hps

omit [LinearOrderedField α] in
theorem deleteRandomPlanet_sun_only_first (r : Nat) (ps : List (Planet α))
    (hps : ∀ p ∈ ps.tail, p.sun = false) :
    ∀ q ∈ (deleteRandomPlanet r ps).tail, q.sun = false := by
  match ps, hps with
  | [], hps => exact hps
  | [p], _ =>
    intro q hq
    cases hp : p.sun <;> simp [deleteRandomPlanet, hp] at hq
  | a :: b :: rest, hps =>
    intro q hq
    have h1 : deleteRandomPlanet r (a :: b :: rest) =
        a :: (b :: rest).eraseIdx (r % ((a :: b :: rest).length - 1)) := by
      show (a :: b :: rest).eraseIdx (1 + r % ((a :: b :: rest).length - 1)) = _
      rw [Nat.add_comm 1, List.eraseIdx_cons_succ]
    rw [h1, List.tail_cons] at hq
    exact hps q (List.mem_of_mem_eraseIdx hq)

theorem applyAction_sun_only_first (M : Libm α) (s s2 : State α) (a : Action α)
    (hcopies : s.planetCopies = initialPlanets)
    (h : applyAction M s a = some s2) (hps : ∀ p ∈ s.planets.tail, p.sun = false) :
    ∀ q ∈ s2.planets.tail, q.sun = false := by
  cases a with
  | frame keys dt =>
    cases Option.some.inj h
    apply tail_sun_of_map_sun_eq s.planets _ _ hps
    simp only [frame]
    by_cases hp : s.pause <;> by_cases ht : s.trailPaths <;>
      simp [hp, ht, physicsStep_map_sun, List.map_map, Function.comp_def]
  | dragZoom v => cases Option.some.inj h; exact hps
  | dragTimeStep v => cases Option.some.inj h; exact hps
  | togglePause => cases Option.some.inj h; exact hps
  | toggleTrailPaths =>
    cases Option.some.inj h
    apply tail_sun_of_map_sun_eq s.planets _ _ hps
    simp [clearTrails, List.map_map, Function.comp_def]
  | clearTrailPaths =>
    cases Option.some.inj h
    apply tail_sun_of_map_sun_eq s.planets _ _ hps
    simp [clearTrails, List.map_map, Function.comp_def]
  | restart =>
    cases Option.some.inj h
    show ∀ q ∈ s.planetCopies.tail, q.sun = false
    rw [hcopies]
    exact initialPlanets_sun_only_first
  | deleteSun =>
    cases Option.some.inj h
    exact deleteSun_sun_only_first s.planets hps
  | deleteRandomPlanet r =>
    cases Option.some.inj h
    exact deleteRandomPlanet_sun_only_first r s.planets hps
  | plutoMass =>
    simp only [applyAction] at h
    cases hp : s.planets[9]? with
    | none => rw [hp] at h; exact Option.noConfusion h
    | some pluto =>
      rw [hp] at h
      cases Option.some.inj h
      apply tail_sun_of_map_sun_eq s.planets _ _ hps
      apply List.ext_getElem?
      intro k
      by_cases hk : 9 = k
      · subst hk
        rw [List.getElem?_map, List.getElem?_map, List.getElem?_set_self', hp]
        rfl
      · simp [List.getElem?_map, List.getElem?_set_ne hk]
  | allMass =>
    cases Option.some.inj h
    apply tail_sun_of_map_sun_eq s.planets _ _ hps
    simp [List.map_map, Function.comp_def]
  | zeroVelocity =>
    cases Option.some.inj h
    apply tail_sun_of_map_sun_eq s.planets _ _ hps
    rw [List.map_map]
    apply List.map_congr_left
    intro p _
    by_cases hp : p.sun <;> simp [hp]

theorem reachable_sun_only_first (M : Libm α) (s : State α) (h : Reachable M s) :
    ∀ p ∈ s.planets.tail, p.sun = false := by
  induction h with
  | init => exact initialPlanets_sun_only_first
  | step s s2 a hr hstep ih =>
    exact applyAction_sun_only_first M s s2 a (reachable_planetCopies M s hr) hstep ih

/-- Witness of `C12_deleteRandomPlanet_removes_planet`: the initial list and
the random value 7. -/
theorem C12_deleteRandomPlanet_removes_planet_witness :
    (((initialPlanets : List (Planet ℝ)) = [] ∨
        ∃ p, (initialPlanets : List (Planet ℝ)) = [p] ∧ p.sun = true) →
      deleteRandomPlanet 7 (initialPlanets : List (Planet ℝ)) = initialPlanets) ∧
    (¬ ((initialPlanets : List (Planet ℝ)) = [] ∨
        ∃ p, (initialPlanets : List (Planet ℝ)) = [p] ∧ p.sun = true) →
      ∃ l1 p l2, (initialPlanets : List (Planet ℝ)) = l1 ++ p :: l2 ∧ p.sun = false ∧
        deleteRandomPlanet 7 (initialPlanets : List (Planet ℝ)) = l1 ++ l2) :=
  C12_deleteRandomPlanet_removes_planet 7 initialPlanets initialPlanets_sun_only_first

/-- Claim C17, evaluated at the failing input: after "Delete the sun" in the
initial state the list has 9 bodies, so index 9 is not smaller than the number
of bodies and the write of "Make the mass of pluto the sun" to `planets[9]` is
out of bounds. -/
theorem C17_plutoMass_out_of_bounds :
    Reachable realLibm { (initialState : State ℝ) with planets := deleteSun initialPlanets } ∧
    ({ (initialState : State ℝ) with planets := deleteSun initialPlanets }).planets.length = 9 ∧
    ¬ 9 < ({ (initialState : State ℝ) with planets := deleteSun initialPlanets }).planets.length ∧
    applyAction realLibm { (initialState : State ℝ) with planets := deleteSun initialPlanets }
      .plutoMass = none := by
  have hlen : ({ (initialState : State ℝ) with
      planets := deleteSun initialPlanets }).planets.length = 9 := by
    simp [deleteSun, initialPlanets, initPlanet]
  refine ⟨Reachable.step initialState _ .deleteSun Reachable.init rfl, hlen, ?_, ?_⟩
  · rw [hlen]
    exact Nat.lt_irrefl 9
  · simp [applyAction, deleteSun, initialPlanets, initPlanet]

end DeleteReachable

/-! ## Paused frames -/

section Pause

variable {α : Type} [LinearOrderedField α]

theorem clearTrails_drawTrail (ps : List (Planet α)) :
    clearTrails (ps.map fun planet =>
        { planet with
          trailBatch :=
            drawTrail planet.trailBatch
              ⟨FVal.mul binary32 planet.pos.x SCREEN_SCALE,
                FVal.mul binary32 planet.pos.y SCREEN_SCALE⟩ TRAIL_LINE_COLOR }) =
      clearTrails ps := by
  simp [clearTrails, List.map_map, Function.comp_def]

theorem frame_paused (M : Libm α) (keys : Keys) (dt : FVal α) (s : State α)
    (hp : s.pause = true) :
    (frame M keys dt s).pause = true ∧
    (frame M keys dt s).trailPaths = s.trailPaths ∧
    (frame M keys dt s).timeStep = s.timeStep ∧
    (frame M keys dt s).planetCopies = s.planetCopies ∧
    clearTrails (frame M keys dt s).planets = clearTrails s.planets ∧
    (s.trailPaths = false → (frame M keys dt s).planets = s.planets) := by
  refine ⟨hp, rfl, rfl, rfl, ?_, ?_⟩
  · by_cases ht : s.trailPaths
    · simp only [frame, hp, ht, if_true]
      exact clearTrails_drawTrail s.planets
    · simp [frame, hp, ht]
  · intro ht
    simp [frame, hp, ht]

theorem runFrames_paused (M : Libm α) (inputs : List (Keys × FVal α)) :
    ∀ s : State α, s.pause = true →
      (runFrames M inputs s).pause = true ∧
      (runFrames M inputs s).trailPaths = s.trailPaths ∧
      clearTrails (runFrames M inputs s).planets = clearTrails s.planets ∧
      (s.trailPaths = false → (runFrames M inputs s).planets = s.planets) := by
  induction inputs with
  | nil => intro s hp; exact ⟨hp, rfl, rfl, fun _ => rfl⟩
  | cons kd inputs ih =>
    intro s hp
    obtain ⟨f1, f2, _, _, f5, f6⟩ := frame_paused M kd.1 kd.2 s hp
    obtain ⟨i1, i2, i3, i4⟩ := ih (frame M kd.1 kd.2 s) f1
    refine ⟨i1, i2.trans f2, i3.trans f5, ?_⟩
    intro ht
    show (runFrames M inputs (frame M kd.1 kd.2 s)).planets = s.planets
    rw [i4 (f2.trans ht), f6 ht]

theorem frame_paused_trails (M : Libm α) (keys : Keys) (dt : FVal α) (s : State α)
    (hp : s.pause = true) (ht : s.trailPaths = true) :
    (frame M keys dt s).planets = s.planets.map fun planet =>
      { planet with
        trailBatch :=
          drawTrail planet.trailBatch
            ⟨FVal.mul binary32 planet.pos.x SCREEN_SCALE,
              FVal.mul binary32 planet.pos.y SCREEN_SCALE⟩ TRAIL_LINE_COLOR } := by
  simp [frame, hp, ht]

theorem runFrames_paused_trails (M : Libm α) (inputs : List (Keys × FVal α)) :
    ∀ s : State α, s.pause = true → s.trailPaths = true →
      (runFrames M inputs s).planets = s.planets.map fun planet =>
        { planet with
          trailBatch :=
            Nat.iterate (fun b => drawTrail b
              ⟨FVal.mul binary32 planet.pos.x SCREEN_SCALE,
                FVal.mul binary32 planet.pos.y SCREEN_SCALE⟩ TRAIL_LINE_COLOR)
              inputs.length planet.trailBatch } := by
  induction inputs with
  | nil =>
    intro s _ _
    simp [runFrames]
  | cons kd inputs ih =>
    intro s hp ht
    obtain ⟨f1, f2, _, _, _, _⟩ := frame_paused M kd.1 kd.2 s hp
    show (runFrames M inputs (frame M kd.1 kd.2 s)).planets = _
    rw [ih (frame M kd.1 kd.2 s) f1 (f2.trans ht), frame_paused_trails M kd.1 kd.2 s hp ht,
      List.map_map]
    apply List.map_congr_left
    intro planet _
    simp [Function.iterate_succ_apply]

omit [LinearOrderedField α] in
theorem clearTrails_pos_vel (ps qs : List (Planet α)) (h : clearTrails ps = clearTrails qs) :
    ps.length = qs.length ∧
    (ps.map fun p => (p.mass, p.distance, p.radius, p.pos, p.vel, p.color, p.sun)) =
      qs.map fun p => (p.mass, p.distance, p.radius, p.pos, p.vel, p.color, p.sun) := by
  constructor
  · have := congrArg List.length h
    simpa [clearTrails] using this
  · have := congrArg
      (List.map fun p : Planet α => (p.mass, p.distance, p.radius, p.pos, p.vel, p.color, p.sun)) h
    simpa [clearTrails, List.map_map, Function.comp_def] using this

/-- Claim C13 as stated fails: in the initial state with the pause flag and
trail rendering set, one frame appends a point to the trail buffer of every
body, so the body list changes. -/
theorem C13_counterexample :
    Reachable realLibm { (initialState : State ℝ) with pause := true, trailPaths := true } ∧
    ({ (initialState : State ℝ) with pause := true, trailPaths := true }).pause = true ∧
    (runFrames realLibm [(⟨false, false, false, false, false, false, false⟩, .fin 1)]
        { (initialState : State ℝ) with pause := true, trailPaths := true }).planets ≠
      ({ (initialState : State ℝ) with pause := true, trailPaths := true }).planets := by
  refine ⟨?_, rfl, ?_⟩
  · exact Reachable.step { (initialState : State ℝ) with pause := true } _ .toggleTrailPaths
      (Reachable.step initialState _ .togglePause Reachable.init rfl) rfl
  · intro h
    have h1 := congrArg (fun l => (l.head?).map fun p => p.trailBatch.vertices.length) h
    simp [runFrames, frame, initialState, initialPlanets, initPlanet, drawTrail,
      s_MaxTrailVertices] at h1

/-- Claim C13, amended: running any number of frames while the pause flag is
set keeps the flag set and leaves the number and order of the bodies and every
body's mass, distance, radius, position, velocity, colour and reference flag
unchanged (the lists are equal once the trail buffers are cleared); the body
list itself is unchanged when trail rendering is off; when trail rendering is
on, every frame appends the screen position of each body to the trail buffer
of that body through `drawTrail`, and nothing else changes. -/
theorem C13_paused_frames_keep_bodies (M : Libm α) (inputs : List (Keys × FVal α))
    (s : State α) (hp : s.pause = true) :
    (runFrames M inputs s).pause = true ∧
    (runFrames M inputs s).planets.length = s.planets.length ∧
    ((runFrames M inputs s).planets.map
        fun p => (p.mass, p.distance, p.radius, p.pos, p.vel, p.color, p.sun)) =
      (s.planets.map fun p => (p.mass, p.distance, p.radius, p.pos, p.vel, p.color, p.sun)) ∧
    clearTrails (runFrames M inputs s).planets = clearTrails s.planets ∧
    (s.trailPaths = false → (runFrames M inputs s).planets = s.planets) ∧
    (s.trailPaths = true →
      (runFrames M inputs s).planets = s.planets.map fun planet =>
        { planet with
          trailBatch :=
            Nat.iterate (fun b => drawTrail b
              ⟨FVal.mul binary32 planet.pos.x SCREEN_SCALE,
                FVal.mul binary32 planet.pos.y SCREEN_SCALE⟩ TRAIL_LINE_COLOR)
              inputs.length planet.trailBatch }) := by
  obtain ⟨h1, _, h3, h4⟩ := runFrames_paused M inputs s hp
  obtain ⟨h5, h6⟩ := clearTrails_pos_vel _ _ h3
  exact ⟨h1, h5, h6, h3, h4, runFrames_paused_trails M inputs s hp⟩

/-- Witness of `C13_paused_frames_keep_bodies`: two frames in the paused
initial state with trail rendering on. -/
theorem C13_paused_frames_keep_bodies_witness :
    (runFrames realLibm
        [(⟨false, false, false, false, false, false, false⟩, .fin 1),
          (⟨true, true, false, false, false, false, false⟩, .fin 2)]
        { (initialState : State ℝ) with pause := true, trailPaths := true }).pause = true ∧
    (runFrames realLibm
        [(⟨false, false, false, false, false, false, false⟩, .fin 1),
          (⟨true, true, false, false, false, false, false⟩, .fin 2)]
        { (initialState : State ℝ) with pause := true, trailPaths := true }).planets.length =
      ({ (initialState : State ℝ) with pause := true, trailPaths := true }).planets.length ∧
    ((runFrames realLibm
        [(⟨false, false, false, false, false, false, false⟩, .fin 1),
          (⟨true, true, false, false, false, false, false⟩, .fin 2)]
        { (initialState : State ℝ) with pause := true, trailPaths := true }).planets.map
        fun (p : Planet ℝ) => (p.mass, p.distance, p.radius, p.pos, p.vel, p.color, p.sun)) =
      (({ (initialState : State ℝ) with pause := true, trailPaths := true }).planets.map
        fun (p : Planet ℝ) => (p.mass, p.distance, p.radius, p.pos, p.vel, p.color, p.sun)) ∧
    clearTrails (runFrames realLibm
        [(⟨false, false, false, false, false, false, false⟩, .fin 1),
          (⟨true, true, false, false, false, false, false⟩, .fin 2)]
        { (initialState : State ℝ) with pause := true, trailPaths := true }).planets =
      clearTrails ({ (initialState : State ℝ) with pause := true, trailPaths := true }).planets ∧
    (({ (initialState : State ℝ) with pause := true, trailPaths := true }).trailPaths = false →
      (runFrames realLibm
        [(⟨false, false, false, false, false, false, false⟩, .fin 1),
          (⟨true, true, false, false, false, false, false⟩, .fin 2)]
        { (initialState : State ℝ) with pause := true, trailPaths := true }).planets =
      ({ (initialState : State ℝ) with pause := true, trailPaths := true }).planets) ∧
    (({ (initialState : State ℝ) with pause := true, trailPaths := true }).trailPaths = true →
      (runFrames realLibm
        [(⟨false, false, false, false, false, false, false⟩, .fin 1),
          (⟨true, true, false, false, false, false, false⟩, .fin 2)]
        { (initialState : State ℝ) with pause := true, trailPaths := true }).planets =
      ({ (initialState : State ℝ) with pause := true, trailPaths := true }).planets.map
        fun (planet : Planet ℝ) =>
        { planet with
          trailBatch :=
            Nat.iterate (fun b => drawTrail b
              ⟨FVal.mul binary32 planet.pos.x SCREEN_SCALE,
                FVal.mul binary32 planet.pos.y SCREEN_SCALE⟩ TRAIL_LINE_COLOR)
              [((⟨false, false, false, false, false, false, false⟩ : Keys), (.fin 1 : FVal ℝ)),
                (⟨true, true, false, false, false, false, false⟩, .fin 2)].length
              planet.trailBatch }) :=
  C13_paused_frames_keep_bodies realLibm _ _ rfl

end Pause

/-! ## The screen scale -/

section Scale

/-- Claim C14, evaluated in the program: with `SCREEN_SCALE` the `float`
nearest to `2.67379679e-9`, the product `AU * SCREEN_SCALE` is the finite
value `149600000000 * 6020855 / 2^51 = 399.99999224...`, in `double` as in
`float` arithmetic; it is within `10^-5` of 400 and more than 99 away from
the 300 the comment on the macro promises. -/
theorem C14_AU_maps_to_400_pixels :
    FVal.mul binary64 (AU : FVal ℝ) SCREEN_SCALE =
      .fin (149600000000 * (6020855 / 2251799813685248)) ∧
    FVal.mul binary32 (AU : FVal ℝ) SCREEN_SCALE =
      .fin (149600000000 * (6020855 / 2251799813685248)) ∧
    |(149600000000 * (6020855 / 2251799813685248) : ℝ) - 400| < 1 / 100000 ∧
    99 < |(149600000000 * (6020855 / 2251799813685248) : ℝ) - 300| ∧
    ¬ ∃ v : ℝ, FVal.mul binary64 (AU : FVal ℝ) SCREEN_SCALE = .fin v ∧ |v - 300| < 1 := by
  have h64 : FVal.mul binary64 (AU : FVal ℝ) SCREEN_SCALE =
      .fin (149600000000 * (6020855 / 2251799813685248)) :=
    FVal.mul_fin _ (fits64_of_bounds (by norm_num) (by norm_num))
  have h32 : FVal.mul binary32 (AU : FVal ℝ) SCREEN_SCALE =
      .fin (149600000000 * (6020855 / 2251799813685248)) :=
    FVal.mul_fin _ (fits32_of_bounds (by norm_num) (by norm_num))
  have h300 : 99 < |(149600000000 * (6020855 / 2251799813685248) : ℝ) - 300| := by
    rw [lt_abs]
    left
    norm_num
  refine ⟨h64, h32, ?_, h300, ?_⟩
  · rw [abs_lt]
    constructor <;> norm_num
  · rintro ⟨v, hv, habs⟩
    rw [h64] at hv
    have hv2 : (149600000000 * (6020855 / 2251799813685248) : ℝ) = v := FVal.fin.inj hv
    rw [← hv2] at habs
    linarith

end Scale

/-! ## The distance field -/

section Distance

variable {α : Type} [LinearOrderedField α]


theorem accumulateForces_distance (M : Libm α) (i : Nat) (body : Planet α) :
    ∀ (rest : List (Planet α)) (j : Nat) (planet : Planet α) (sum : OglsVec2 α),
      planet.pos = body.pos →
      (accumulateForces M i j rest (planet, sum)).1.distance =
        match ((rest.enumFrom j).filter fun jp => decide (jp.1 ≠ i) && jp.2.sun).getLast? with
        | none => planet.distance
        | some jp =>
          distanceTo M body jp.2 := by
  intro rest
  induction rest with
  | nil => intro j planet sum _; rfl
  | cons pj rest ih =>
    intro j planet sum hpos
    by_cases hij : i = j
    · subst hij
      have := ih (i + 1) planet sum hpos
      simpa [accumulateForces, List.enumFrom] using this
    · have hji : j ≠ i := fun h => hij h.symm
      by_cases hs : pj.sun
      · have := ih (j + 1)
          { planet with distance := distanceTo M planet pj }
          ⟨FVal.add binary32 sum.x (getPlanetAttraction M
              { planet with distance := distanceTo M planet pj } pj).x,
            FVal.add binary32 sum.y (getPlanetAttraction M
              { planet with distance := distanceTo M planet pj } pj).y⟩ hpos
        simp only [accumulateForces, if_neg hij, hs, if_true, List.enumFrom, List.filter_cons,
          decide_eq_true hji, Bool.and_self, List.getLast?_cons]
        rw [this]
        cases hl : ((rest.enumFrom (j + 1)).filter
            fun jp => decide (jp.1 ≠ i) && jp.2.sun).getLast? with
        | none => simp [hpos, distanceTo]
        | some jp => simp
      · have := ih (j + 1) planet
          ⟨FVal.add binary32 sum.x (getPlanetAttraction M planet pj).x,
            FVal.add binary32 sum.y (getPlanetAttraction M planet pj).y⟩ hpos
        simpa [accumulateForces, hij, hji, hs, List.enumFrom] using this

/-- Claim C15: after one unpaused step the `distance` of the body at index `k`
is its old value when no other body of the list is flagged; otherwise it is
the Euclidean distance from the position body `k` had when it was processed to
the position of the last other flagged body of the list as it stood then. -/
theorem C15_distance_from_last_sun (M : Libm α) (dt : FVal α) (ps : List (Planet α)) (k : Nat)
    (body : Planet α) (hk : ps[k]? = some body) :
    ∃ body2 : Planet α,
      (physicsStep M dt ps)[k]? = some body2 ∧
      body2.distance =
        match ((((physicsStep M dt ps).take k ++ ps.drop k).enum).filter
            fun jp => decide (jp.1 ≠ k) && jp.2.sun).getLast? with
        | none => body.distance
        | some jp =>
          (M.fsqrt binary64 (FVal.add binary64
            ((FVal.sub binary32 body.pos.x jp.2.pos.x).pow2 binary64)
            ((FVal.sub binary32 body.pos.y jp.2.pos.y).pow2 binary64))).round binary32 := by
  refine ⟨updatePlanet M dt ((physicsStep M dt ps).take k ++ ps.drop k) k body, ?_, ?_⟩
  · rw [physicsStep_getElem?, hk]
    rfl
  · have := accumulateForces_distance M k body ((physicsStep M dt ps).take k ++ ps.drop k) 0
      body ⟨.fin 0, .fin 0⟩ rfl
    simpa [updatePlanet, List.enum, distanceTo] using this

/-- Witness of `C15_distance_from_last_sun`: a planet at `(1,0)` next to a sun
at the origin, time step 1. -/
theorem C15_distance_from_last_sun_witness :
    ∃ body2 : Planet ℝ,
      (physicsStep realLibm (.fin 1)
        [initPlanet (.fin 10000000000) (.fin 0) (.fin 1) ⟨.fin 0, .fin 0⟩ ⟨.fin 0, .fin 0⟩
            ⟨.fin 1, .fin 1, .fin 1⟩ true,
          pointMass 10000000000 1 0 0 0])[1]? = some body2 ∧
      body2.distance =
        match ((((physicsStep realLibm (.fin 1)
            [initPlanet (.fin 10000000000) (.fin 0) (.fin 1) ⟨.fin 0, .fin 0⟩ ⟨.fin 0, .fin 0⟩
                ⟨.fin 1, .fin 1, .fin 1⟩ true,
              pointMass 10000000000 1 0 0 0]).take 1 ++
            [initPlanet (.fin 10000000000) (.fin 0) (.fin 1) ⟨.fin 0, .fin 0⟩ ⟨.fin 0, .fin 0⟩
                ⟨.fin 1, .fin 1, .fin 1⟩ true,
              pointMass 10000000000 1 0 0 0].drop 1).enum).filter
            fun (jp : Nat × Planet ℝ) => decide (jp.1 ≠ 1) && jp.2.sun).getLast? with
        | none => (pointMass (10000000000 : ℝ) 1 0 0 0).distance
        | some jp =>
          (realLibm.fsqrt binary64 (FVal.add binary64
            ((FVal.sub binary32 (pointMass (10000000000 : ℝ) 1 0 0 0).pos.x
              jp.2.pos.x).pow2 binary64)
            ((FVal.sub binary32 (pointMass (10000000000 : ℝ) 1 0 0 0).pos.y
              jp.2.pos.y).pow2 binary64))).round binary32 :=
  C15_distance_from_last_sun realLibm (.fin 1) _ 1 (pointMass 10000000000 1 0 0 0) rfl

end Distance

/-! ## Line segments -/

section Line

variable {α : Type}

/-- Claim C16, evaluated at every input: `drawLine` builds the two endpoint
vertices and the four indices `0, 1, 2, 3`; the indices 2 and 3 are not smaller
than the number of vertices. -/
theorem C16_drawLine_indices_out_of_range (batch : BatchGroup α) (pos1 pos2 : OglsVec2 α)
    (color : OglsVec3 α) :
    (drawLine batch pos1 pos2 color).vertices = [⟨pos1, color⟩, ⟨pos2, color⟩] ∧
    (drawLine batch pos1 pos2 color).indices = [0, 1, 2, 3] ∧
    ¬ ∀ idx ∈ (drawLine batch pos1 pos2 color).indices,
        idx < (drawLine batch pos1 pos2 color).vertices.length := by
  refine ⟨rfl, rfl, ?_⟩
  intro h
  have := h 2 (by simp [drawLine])
  simp [drawLine] at this

end Line

end SolarSystem
